import Mathlib

/-!
Shallow embedding of the packet decoding / flow aggregation core of
`sensor.py` (a passive network sensor), together with theorems that settle
the specification's claims about it.

Conventions of the embedding:

* IPv4 addresses are modelled as their 32-bit integer value (the value
  `addr_to_int(ip_string)` computes in the source; dotted-quad strings and
  these integers are in bijection, `socket.inet_ntoa` being the inverse).
* Python dictionaries are modelled as association lists with
  assign-or-append update (`aupdate`) and linear lookup (`alookup`); Python
  sets of addresses are modelled as duplicate-free lists with
  `List.insert`.
* The composite string keys of the source ("proto:dst_ip:dst_port" and
  "proto:dst_ip:dst_port:src_ip") are modelled as structured tuples; the
  string formatting is injective on the fields involved (protocol names,
  dotted quads and decimal ports contain no colon), so this is faithful.
* The `_auxiliary` dictionary of the source holds both flow markers (keyed
  by a sorted 4-tuple) and statistics entries (keyed by a string); the two
  key populations are disjoint in Python (tuple vs str), which the sum
  type `AuxKey` reproduces.
* Machine integers do not overflow here (all arithmetic is Python int),
  so plain `Nat` is used.
-/

namespace Sensor

/-- Association-list lookup, modelling Python `d[k]` / `k in d`. -/
def alookup {κ α : Type} [DecidableEq κ] (k : κ) : List (κ × α) → Option α
  | [] => none
  | (k', v) :: t => if k' = k then some v else alookup k t

/-- Association-list assignment, modelling Python `d[k] = v`: replaces the
binding in place when the key is present, appends otherwise. -/
def aupdate {κ α : Type} [DecidableEq κ] (k : κ) (v : α) : List (κ × α) → List (κ × α)
  | [] => [(k, v)]
  | (k', v') :: t => if k' = k then (k, v) :: t else (k', v') :: aupdate k v t

/-- A transport port: a 16-bit number for TCP/UDP, or the placeholder
string `'-'` used by the source for port-less protocols (line 195). -/
inductive Port : Type
  | num (n : Nat)
  | dash
deriving DecidableEq

/-- One element of the non-TCP flow-identity 4-tuple
`(addr_to_int(src_ip), src_port, addr_to_int(dst_ip), dst_port)`
(line 203).  The elements are Python ints or the string `'-'`; under
Python 2 comparison every int sorts below every str, which `FlowElem.le`
reproduces. -/
inductive FlowElem : Type
  | num (n : Nat)
  | dash
deriving DecidableEq

/-- Python 2 ordering on the mixed int/str elements of the flow tuple. -/
def FlowElem.le : FlowElem → FlowElem → Bool
  | .num a, .num b => a ≤ b
  | .num _, .dash => true
  | .dash, .num _ => false
  | .dash, .dash => true

def FlowElem.rel (a b : FlowElem) : Prop := FlowElem.le a b = true

instance : DecidableRel FlowElem.rel := fun a b =>
  inferInstanceAs (Decidable (_ = true))

instance : IsTotal FlowElem FlowElem.rel where
  total a b := by cases a <;> cases b <;> simp [FlowElem.rel, FlowElem.le] <;> omega

instance : IsTrans FlowElem FlowElem.rel where
  trans a b c := by cases a <;> cases b <;> cases c <;> simp [FlowElem.rel, FlowElem.le] <;> omega

instance : IsAntisymm FlowElem FlowElem.rel where
  antisymm a b := by cases a <;> cases b <;> simp [FlowElem.rel, FlowElem.le] <;> omega

def FlowElem.ofPort : Port → FlowElem
  | .num n => .num n
  | .dash => .dash

/-- `tuple(sorted((addr_to_int(src_ip), src_port, addr_to_int(dst_ip), dst_port)))`
(line 203): the canonical non-TCP flow identity. -/
def canonFlow (src : Nat) (srcPort : Port) (dst : Nat) (dstPort : Port) : List FlowElem :=
  List.insertionSort FlowElem.rel
    [FlowElem.num src, FlowElem.ofPort srcPort, FlowElem.num dst, FlowElem.ofPort dstPort]

/-- `dst_key = "%s:%s:%s" % (proto, dst_ip, dst_port)` (line 169/200),
as a structured triple. -/
abbrev DstKey := String × Nat × Port

/-- `stat_key = "%s:%s" % (dst_key, src_ip)` (line 170/201). -/
abbrev StatKey := DstKey × Nat

/-- Keys of the `_auxiliary` dictionary: statistics entries (string keys in
the source) and flow-seen markers (tuple keys); the two populations are
disjoint in Python because a str never equals a tuple. -/
inductive AuxKey : Type
  | stat (k : StatKey)
  | flow (f : List FlowElem)
deriving DecidableEq

/-- Values of `_auxiliary`: the `True` marker for seen flows, or
`[first_seen, last_seen, count]` for statistics entries. -/
inductive AuxVal : Type
  | mark
  | stat (v : Nat × Nat × Nat)
deriving DecidableEq

/-- The mutable aggregation state: `_traffic` (dst_key → set of source
addresses) and `_auxiliary`. -/
structure SensorState : Type where
  traffic : List (DstKey × List Nat)
  aux : List (AuxKey × AuxVal)
deriving DecidableEq

def emptyState : SensorState := ⟨[], []⟩

/-- The externally supplied configuration and environment the core reads:
`LOCAL_NETWORKS` (pairs of network value and mask, as integers),
`HOST_ADDRESSES`, and the ignore lists.  The source implements the ignore
tests as substring tests over configured strings
(`src_ip in (config.IGNORE_ADDRESSES or "")`, line 152, and
`str(port) in (config.IGNORE_PORTS or "")`, lines 166/197); they are
modelled as the Boolean predicates those tests induce. -/
structure Config : Type where
  localNetworks : List (Nat × Nat)
  hostAddresses : List Nat
  ignoreAddr : Nat → Bool
  ignorePort : Port → Bool

/-- Lines 146-150: `addr_to_int(src_ip) & mask == prefix` for some local
network. -/
def isLocal (cfg : Config) (addr : Nat) : Bool :=
  cfg.localNetworks.any (fun pm => addr &&& pm.2 == pm.1)

/-- Statistics lookup helper: the source's `_auxiliary[stat_key]` access
for a string (statistics) key. -/
def statLookup (sk : StatKey) (st : SensorState) : Option (Nat × Nat × Nat) :=
  match alookup (AuxKey.stat sk) st.aux with
  | some (AuxVal.stat v) => some v
  | _ => none

/-- A decoded observation, as produced by the parsing part of
`_process_packet`: protocol name (looked up in `IPPROTO_LUT`), IP protocol
number, addresses, ports, and the TCP flag byte (only meaningful when
`protocol = 6`; 0 otherwise). -/
structure Obs : Type where
  proto : String
  protocol : Nat
  src : Nat
  dst : Nat
  srcPort : Port
  dstPort : Port
  flags : Nat
deriving DecidableEq

/-- The aggregation step of `_process_packet` (lines 159-219), applied to a
decoded observation that already passed the decode-time filters.  The
TCP branch models lines 169-182 (the local-source skip and the port
parsing/filters of lines 160-167 happen at decode time, see
`decodeFrame`); the non-TCP branch models lines 200-219, including the
local-origin check that the source performs only *after* marking the flow
seen (lines 205-209).  The `AuxVal.mark` fall-through cases are
unreachable (a statistics key never maps to a flow marker); in Python they
would raise `TypeError`, be caught by the blanket `except`, and leave the
state as it stands, which the fall-through reproduces. -/
def aggregate (cfg : Config) (st : SensorState) (o : Obs) (sec : Nat) : SensorState :=
  let dk : DstKey := (o.proto, o.dst, o.dstPort)
  let sk : StatKey := (dk, o.src)
  if o.protocol = 6 then
    if o.flags = 2 then
      let tset := (alookup dk st.traffic).getD []
      let traffic' := aupdate dk (tset.insert o.src) st.traffic
      let aux' :=
        match alookup (AuxKey.stat sk) st.aux with
        | none => aupdate (AuxKey.stat sk) (AuxVal.stat (sec, sec, 1)) st.aux
        | some (AuxVal.stat (f, _, c)) =>
            aupdate (AuxKey.stat sk) (AuxVal.stat (f, sec, c + 1)) st.aux
        | some AuxVal.mark => st.aux
      ⟨traffic', aux'⟩
    else st
  else
    let fk := canonFlow o.src o.srcPort o.dst o.dstPort
    match alookup (AuxKey.flow fk) st.aux with
    | none =>
      let aux1 := aupdate (AuxKey.flow fk) AuxVal.mark st.aux
      if isLocal cfg o.src then ⟨st.traffic, aux1⟩
      else
        let tset := (alookup dk st.traffic).getD []
        ⟨aupdate dk (tset.insert o.src) st.traffic,
         aupdate (AuxKey.stat sk) (AuxVal.stat (sec, sec, 1)) aux1⟩
    | some _ =>
      match alookup (AuxKey.stat sk) st.aux with
      | some (AuxVal.stat (f, _, c)) =>
          ⟨st.traffic, aupdate (AuxKey.stat sk) (AuxVal.stat (f, sec, c + 1)) st.aux⟩
      | some AuxVal.mark => st
      | none => st

/-! ## Header decoding (lines 126-167 and 184-198 of `sensor.py`) -/

/-- Byte access into a frame; every access below is guarded by the length
checks that make the corresponding Python `struct.unpack` succeed, so the
default value is never consulted where Python would not raise. -/
def byteAt (l : List Nat) (i : Nat) : Nat := l.getD i 0

def be16 (a b : Nat) : Nat := a * 256 + b

def be32 (a b c d : Nat) : Nat := ((a * 256 + b) * 256 + c) * 256 + d

/-- `socket.ntohs` on a little-endian host: swap the two bytes of a 16-bit
value. -/
def ntohs16 (x : Nat) : Nat := x % 256 * 256 + x / 256

/-- Modelled from the spec (the `core.settings` module is not under
`src/`): the Ethernet header length used by the decoder's fixed-size
link-layer unpack (`"!HH8sH"` is 14 bytes). -/
def ETH_LENGTH : Nat := 14

/-- Modelled from the spec (the `core.settings` module is not under
`src/`): the settings constant the decoder compares
`socket.ntohs(eth_header[3])` against to recognise an IPv4 payload; it is
the host-order value of EtherType 0x0800 on a little-endian host. -/
def IPPROTO : Nat := 8

/-- Modelled from the spec (the `core.settings` module is not under
`src/`): the protocol-number table, "e.g. 6→tcp, 17→udp, 1→icmp";
unknown numbers yield `none` and the frame is skipped. -/
def IPPROTO_LUT (n : Nat) : Option String :=
  if n = 1 then some "icmp" else if n = 6 then some "tcp"
  else if n = 17 then some "udp" else none

/-- The capture session's link-layer type; only these two are accepted by
`init_sensor` (line 292). -/
inductive Datalink : Type
  | en10mb
  | linuxSLL
deriving DecidableEq

/-- The fields extracted from the link and IPv4 headers (lines 128-142):
protocol number, addresses as integers, the IP header length, and the
frame truncated to the declared IP total length (line 137). -/
structure IPInfo : Type where
  protocol : Nat
  src : Nat
  dst : Nat
  iphLength : Nat
  trunc : List Nat
deriving DecidableEq

/-- Lines 128-142: strip the 2-byte cooked-capture pseudo-header, unpack
the Ethernet header (raising — `.error` — when fewer than 14 bytes are
available), skip (`.ok none`) non-IPv4 payloads, unpack the 20-byte fixed
IPv4 header (raising when fewer than 34 bytes are available), and truncate
the frame to the declared IP total length. -/
def parseEthIP (dl : Datalink) (packet0 : List Nat) : Except Unit (Option IPInfo) :=
  let packet := if dl = Datalink.linuxSLL then packet0.drop 2 else packet0
  if packet.length < ETH_LENGTH then Except.error () else
  let ethProtocol := ntohs16 (be16 (byteAt packet 12) (byteAt packet 13))
  if ethProtocol ≠ IPPROTO then Except.ok none
  else if packet.length < ETH_LENGTH + 20 then Except.error ()
  else
    let ipLength := be16 (byteAt packet 16) (byteAt packet 17)
    let trunc := packet.take (ETH_LENGTH + ipLength)
    let iphLength := byteAt packet 14 % 16 * 4
    let protocol := byteAt packet 23
    let src := be32 (byteAt packet 26) (byteAt packet 27) (byteAt packet 28) (byteAt packet 29)
    let dst := be32 (byteAt packet 30) (byteAt packet 31) (byteAt packet 32) (byteAt packet 33)
    Except.ok (some ⟨protocol, src, dst, iphLength, trunc⟩)

/-- The full decoding step of `_process_packet` (lines 128-167, 184-198):
header parsing plus all the skip filters (unknown protocol, ignore
lists, host-address scope, the TCP local-source skip of line 160-161, and
the UDP reflection heuristic of line 192).  `.error` marks the places
where Python raises and the blanket `except` of line 221 catches;
`.ok none` marks the source's plain `return` skips. -/
def decodeFrame (cfg : Config) (dl : Datalink) (packet0 : List Nat) :
    Except Unit (Option Obs) :=
  match parseEthIP dl packet0 with
  | Except.error e => Except.error e
  | Except.ok none => Except.ok none
  | Except.ok (some info) =>
    match IPPROTO_LUT info.protocol with
    | none => Except.ok none
    | some protoName =>
      if cfg.ignoreAddr info.src || cfg.ignoreAddr info.dst then Except.ok none
      else if cfg.hostAddresses ≠ [] ∧ info.dst ∉ cfg.hostAddresses then Except.ok none
      else if info.protocol = 6 then
        if isLocal cfg info.src then Except.ok none
        else
          let i := info.iphLength + ETH_LENGTH
          if info.trunc.length < i + 14 then Except.error ()
          else
            let srcPort := be16 (byteAt info.trunc i) (byteAt info.trunc (i + 1))
            let dstPort := be16 (byteAt info.trunc (i + 2)) (byteAt info.trunc (i + 3))
            let flags := byteAt info.trunc (i + 13)
            if cfg.ignorePort (Port.num srcPort) || cfg.ignorePort (Port.num dstPort) then
              Except.ok none
            else
              Except.ok (some ⟨protoName, info.protocol, info.src, info.dst,
                Port.num srcPort, Port.num dstPort, flags⟩)
      else if info.protocol = 17 then
        let seg := (info.trunc.drop (info.iphLength + ETH_LENGTH)).take 4
        if seg.length < 4 then Except.ok none
        else
          let srcPort := be16 (byteAt seg 0) (byteAt seg 1)
          let dstPort := be16 (byteAt seg 2) (byteAt seg 3)
          if srcPort < 1024 ∧ dstPort > 1024 ∧ info.dst ∈ cfg.hostAddresses then Except.ok none
          else if cfg.ignorePort (Port.num srcPort) || cfg.ignorePort (Port.num dstPort) then
            Except.ok none
          else
            Except.ok (some ⟨protoName, info.protocol, info.src, info.dst,
              Port.num srcPort, Port.num dstPort, 0⟩)
      else
        if cfg.ignorePort Port.dash then Except.ok none
        else
          Except.ok (some ⟨protoName, info.protocol, info.src, info.dst,
            Port.dash, Port.dash, 0⟩)

/-- One `_process_packet` call without its trailing `_log_write()` (which
the sensor loop triggers after every packet and which is modelled
separately by `log_write`): decode, and on success aggregate.  The
blanket `try/except` of lines 127/221-223 reduces every raise to "state
unchanged" — faithful because every raising operation of the body occurs
before the first table mutation. -/
def processPacket (cfg : Config) (dl : Datalink) (packet : List Nat) (sec : Nat)
    (st : SensorState) : SensorState :=
  match decodeFrame cfg dl packet with
  | Except.error _ => st
  | Except.ok none => st
  | Except.ok (some o) => aggregate cfg st o sec

/-- Processing a sequence of decoded observations with their capture
seconds, one `aggregate` step per packet. -/
def processTrace (cfg : Config) (st : SensorState) (ps : List (Obs × Nat)) : SensorState :=
  ps.foldl (fun s p => aggregate cfg s p.1 p.2) st

/-! ## Log writing, rotation and startup recovery (lines 80-124, 295-307) -/

/-- One output row of the daily file: the tuple
`(proto, src_ip, dst_ip, dst_port, first_seen, last_seen, count)`
appended at line 110. -/
structure Row : Type where
  proto : String
  src : Nat
  dst : Nat
  dstPort : Port
  first : Nat
  last : Nat
  count : Nat
deriving DecidableEq

/-- `socket.inet_ntoa` composed with the address integer: the dotted-quad
string of an address, used for the textual file content and for the
Python sort order of rows. -/
def ipStr (a : Nat) : String :=
  toString (a / 16777216 % 256) ++ "." ++ toString (a / 65536 % 256) ++ "." ++
    toString (a / 256 % 256) ++ "." ++ toString (a % 256)

def portStr : Port → String
  | Port.num n => toString n
  | Port.dash => "-"

/-- Modelled from the spec (the `core.settings` module is not under
`src/`): the header row of the daily file, §6 of the spec. -/
def CSV_HEADER : String := "proto src_ip dst_ip dst_port first_seen last_seen count"

/-- `" ".join(str(_) for _ in entry)` (line 113). -/
def formatRow (r : Row) : String :=
  r.proto ++ " " ++ ipStr r.src ++ " " ++ ipStr r.dst ++ " " ++ portStr r.dstPort ++ " " ++
    toString r.first ++ " " ++ toString r.last ++ " " ++ toString r.count

/-- The Python comparison key of a result tuple: the first four components
are compared as strings, the last three as ints (line 112 sorts the
tuples built at line 110). -/
def rowKey (r : Row) :
    Lex (String × Lex (String × Lex (String × Lex (String × Lex (Nat × Lex (Nat × Nat)))))) :=
  toLex (r.proto, toLex (ipStr r.src, toLex (ipStr r.dst, toLex (portStr r.dstPort,
    toLex (r.first, toLex (r.last, r.count))))))

/-- The order in which `sorted(results)` emits rows. -/
def rowRel (a b : Row) : Prop := rowKey a ≤ rowKey b

instance : DecidableRel rowRel := fun a b =>
  inferInstanceAs (Decidable (rowKey a ≤ rowKey b))

instance : IsTotal Row rowRel := ⟨fun a b => le_total (rowKey a) (rowKey b)⟩

instance : IsTrans Row rowRel := ⟨fun _ _ _ h1 h2 => le_trans h1 h2⟩

/-- `sorted(results)` (line 112). -/
def sortRows (rows : List Row) : List Row := List.insertionSort rowRel rows

/-- Option-valued traversal, used to model the `KeyError` the row loop of
lines 103-110 would raise on a missing statistics entry. -/
def optMap {α β : Type} (f : α → Option β) : List α → Option (List β)
  | [] => some []
  | a :: t =>
    match f a, optMap f t with
    | some b, some bs => some (b :: bs)
    | _, _ => none

/-- The row the flush loop builds for one `(dst_key, src_ip)` pair
(lines 108-110); `none` models the `KeyError` of the
`_auxiliary[stat_key]` access when the statistics entry is missing. -/
def rowOf (st : SensorState) (dk : DstKey) (src : Nat) : Option Row :=
  match alookup (AuxKey.stat (dk, src)) st.aux with
  | some (AuxVal.stat (f, l, c)) => some ⟨dk.1, src, dk.2.1, dk.2.2, f, l, c⟩
  | _ => none

/-- The `(dst_key, src_ip)` pairs the flush loop of lines 103-107 visits,
whitelisted sources removed. -/
def trafficPairs (st : SensorState) (wl : Nat → Bool) : List (DstKey × Nat) :=
  (st.traffic.map (fun p => (p.2.filter (fun s => !wl s)).map (fun s => (p.1, s)))).flatten

/-- The unsorted result rows of one flush; `none` models the uncaught
`KeyError` on a missing statistics entry. -/
def fileRows (st : SensorState) (wl : Nat → Bool) : Option (List Row) :=
  optMap (fun p => rowOf st p.1 p.2) (trafficPairs st wl)

/-- The lines written to the file by one flush (lines 99-113): the header
row, then the sorted, formatted result rows. -/
def fileLines (st : SensorState) (wl : Nat → Bool) : Option (List String) :=
  (fileRows st wl).map (fun rows => CSV_HEADER :: (sortRows rows).map formatRow)

/-- The writer's persistent variables `LAST_FILENAME` / `LAST_WRITE`
(lines 57-58). -/
structure LogState : Type where
  lastFilename : Option String
  lastWrite : Option Nat
deriving DecidableEq

/-- The log directory, as a map from filename to file lines; rewriting a
file is an association-list update. -/
abbrev FileSys := List (String × List String)

/-- `_log_write` (lines 80-124) for a top-level call (`filename=None`).
`current` is this call's `time.time()`, `todayFile` the filename computed
from the current UTC date, `wl` this call's freshly computed whitelist.
The one-level recursive call `_log_write(True, LAST_FILENAME)` of line
119 is inlined (with force set its own rollover branch cannot fire, so
the recursion never goes deeper); it runs at a later instant `current2`
and recomputes the whitelist, `wl2`.  A `none` result models an uncaught
`KeyError` from the row loop. -/
def log_write (period : Nat) (wl wl2 : Nat → Bool) (current current2 : Nat)
    (todayFile : String) (force : Bool) (st : SensorState) (ls : LogState)
    (fs : FileSys) : Option (SensorState × LogState × FileSys) :=
  let filename := todayFile
  let lastWrite := ls.lastWrite.getD current
  let lastFilename := ls.lastFilename.getD filename
  let wrote := force || decide (period < current - lastWrite)
  match (if wrote then (fileLines st wl).map (fun lines => (aupdate filename lines fs, current))
         else some (fs, lastWrite) : Option (FileSys × Nat)) with
  | none => none
  | some (fs1, lastWrite1) =>
    if lastFilename ≠ filename then
      if ¬force ∧ lastWrite1 ≠ current then
        match fileLines st wl2 with
        | none => none
        | some lines2 =>
          some (⟨[], []⟩, ⟨some filename, some current2⟩, aupdate lastFilename lines2 fs1)
      else
        some (⟨[], []⟩, ⟨some filename, some lastWrite1⟩, fs1)
    else
      some (st, ⟨some lastFilename, some lastWrite1⟩, fs1)

/-- One row of the startup recovery loop (lines 300-307): re-add the
source to `_traffic[dst_key]` and assign the parsed statistics triple to
`_auxiliary[stat_key]`.  The textual round trip through the CSV line is
dropped: the space-separated fields contain no spaces, `csv.DictReader`
recovers exactly the written fields, and `int(...)`/the dotted-quad
bijection recover the numeric values. -/
def reseedRow (st : SensorState) (r : Row) : SensorState :=
  let dk : DstKey := (r.proto, r.dst, r.dstPort)
  let sk : StatKey := (dk, r.src)
  let tset := (alookup dk st.traffic).getD []
  ⟨aupdate dk (tset.insert r.src) st.traffic,
   aupdate (AuxKey.stat sk) (AuxVal.stat (r.first, r.last, r.count)) st.aux⟩

/-- Startup recovery (lines 295-307): starting from the fresh empty
tables, fold the parsed rows of today's existing file back in.
`FlowSeenSet` (the flow-marker entries of `_auxiliary`) is not in the
file and stays empty. -/
def reseed (rows : List Row) : SensorState := rows.foldl reseedRow emptyState

/-- The aggregation states the sensor can reach: the empty initial state,
any number of per-packet aggregation steps, the rollover clear of lines
123-124, and a restart that reseeds from a parsed file. -/
inductive Reachable (cfg : Config) : SensorState → Prop
  | empty : Reachable cfg emptyState
  | packet {st : SensorState} (o : Obs) (sec : Nat) :
      Reachable cfg st → Reachable cfg (aggregate cfg st o sec)
  | rollover {st : SensorState} : Reachable cfg st → Reachable cfg emptyState
  | reseed (rows : List Row) : Reachable cfg (reseed rows)

/-! ## Invariants and fixtures used by the theorems -/

/-- List of keys of an association list. -/
def akeys {κ α : Type} (l : List (κ × α)) : List κ := l.map Prod.fst

/-- The statistics key a file row describes:
`"%s:%s:%s:%s" % (proto, dst_ip, dst_port, src_ip)`. -/
def skOfRow (r : Row) : StatKey := ((r.proto, r.dst, r.dstPort), r.src)

/-- Every statistics entry has `first_seen ≤ last_seen` and a `last_seen`
bounded by `t`. -/
def StatBounded (st : SensorState) (t : Nat) : Prop :=
  ∀ sk f l c, statLookup sk st = some (f, l, c) → f ≤ l ∧ l ≤ t

/-- Every contact recorded in `_traffic` has a statistics entry (the
invariant the flush loop relies on). -/
def TrafficStatInv (st : SensorState) : Prop :=
  ∀ p ∈ st.traffic, ∀ s ∈ p.2, ∃ v, statLookup (p.1, s) st = some v

/-- No statistics key of `_auxiliary` holds a flow marker (statistics
keys are strings, flow markers live under tuple keys; in Python the two
can never collide). -/
def GoodAux (st : SensorState) : Prop :=
  ∀ sk, alookup (AuxKey.stat sk) st.aux ≠ some AuxVal.mark

/-- `_auxiliary` holds only statistics entries (no flow markers) — the
shape of states produced by TCP-only traffic and by startup reseeding. -/
def NoMarks (st : SensorState) : Prop :=
  ∀ q ∈ st.aux, ∃ sk v, q = (AuxKey.stat sk, AuxVal.stat v)

/-- Two states agree on every statistics entry. -/
def StatEq (st1 st2 : SensorState) : Prop :=
  ∀ sk, statLookup sk st1 = statLookup sk st2

/-- Well-formedness of states built from TCP-only traffic, strong enough
for the restart round trip: duplicate-free tables, no flow markers, and
the two-way correspondence between contacts and statistics entries. -/
structure TcpWF (st : SensorState) : Prop where
  tkeys : (akeys st.traffic).Nodup
  tsets : ∀ p ∈ st.traffic, (p.2 : List Nat).Nodup
  auxStat : NoMarks st
  t2s : TrafficStatInv st
  s2t : ∀ sk v, statLookup sk st = some v →
        ∃ p ∈ st.traffic, p.1 = sk.1 ∧ sk.2 ∈ p.2

/-- Fixture: 10.0.0.0/8 is the local network, no host-address scoping, no
ignore lists. -/
def wcfg : Config := ⟨[(167772160, 4278190080)], [], fun _ => false, fun _ => false⟩

/-- Fixture: the external address 203.0.113.5 as an integer. -/
def wS : Nat := 3405803781

/-- Fixture: the monitored local address 10.0.0.2 as an integer. -/
def wD : Nat := 167772162

/-- Fixture: a pure-SYN TCP observation from `wS` to `wD`, port 22. -/
def wSyn : Obs := ⟨"tcp", 6, wS, wD, Port.num 50000, Port.num 22, 2⟩

/-- Fixture: a UDP observation from `wS` to `wD`, DNS-style ports. -/
def wUdp : Obs := ⟨"udp", 17, wS, wD, Port.num 1000, Port.num 53, 0⟩

/-- Fixture: the empty whitelist. -/
def wlNone : Nat → Bool := fun _ => false

/-- Fixture: a UDP observation in the reverse (local-origin) direction of
`wUdp`. -/
def wUdpLocal : Obs := ⟨"udp", 17, wD, wS, Port.num 53, Port.num 1000, 0⟩

/-- Fixture: a 54-byte Ethernet frame carrying an IPv4 TCP pure-SYN
segment from 203.0.113.5:50000 to 10.0.0.2:22 (EtherType 0x0800, IHL 5,
total length 40, protocol 6, flag byte 2). -/
def wFrame : List Nat :=
  [0, 0, 0, 0, 0, 0, 0, 0, 0, 0, 0, 0, 8, 0,
   69, 0, 0, 40, 0, 0, 0, 0, 64, 6, 0, 0,
   203, 0, 113, 5, 10, 0, 0, 2,
   195, 80, 0, 22, 0, 0, 0, 0, 0, 0, 0, 0, 80, 2,
   0, 0, 0, 0, 0, 0]

/-! ## Association-list lemmas -/

theorem alookup_aupdate {κ α : Type} [DecidableEq κ] (k k' : κ) (v : α) (l : List (κ × α)) :
    alookup k' (aupdate k v l) = if k = k' then some v else alookup k' l := by
  induction l with
  | nil => by_cases h : k = k' <;> simp [alookup, aupdate, h]
  | cons p t ih =>
    rcases p with ⟨k0, v0⟩
    by_cases h0 : k0 = k
    · subst h0
      by_cases h1 : k0 = k'
      · subst h1
        simp [aupdate, alookup]
      · simp [aupdate, alookup, h1]
    · by_cases h1 : k0 = k'
      · subst h1
        have hk : k ≠ k0 := fun h => h0 h.symm
        simp [aupdate, h0, alookup, hk]
      · simp [aupdate, h0, alookup, h1, ih]

theorem alookup_aupdate_self {κ α : Type} [DecidableEq κ] (k : κ) (v : α) (l : List (κ × α)) :
    alookup k (aupdate k v l) = some v := by
  simp [alookup_aupdate]

theorem alookup_aupdate_ne {κ α : Type} [DecidableEq κ] {k k' : κ} (v : α) (l : List (κ × α))
    (h : k ≠ k') : alookup k' (aupdate k v l) = alookup k' l := by
  simp [alookup_aupdate, h]

theorem aupdate_aupdate_self {κ α : Type} [DecidableEq κ] (k : κ) (v : α) (l : List (κ × α)) :
    aupdate k v (aupdate k v l) = aupdate k v l := by
  induction l with
  | nil => simp [aupdate]
  | cons p t ih =>
    rcases p with ⟨k0, v0⟩
    by_cases h0 : k0 = k
    · subst h0
      simp [aupdate]
    · simp [aupdate, h0, ih]

theorem mem_aupdate {κ α : Type} [DecidableEq κ] {k : κ} {v : α} {l : List (κ × α)}
    {p : κ × α} (h : p ∈ aupdate k v l) : p = (k, v) ∨ p ∈ l := by
  induction l with
  | nil => simpa [aupdate] using h
  | cons q t ih =>
    rcases q with ⟨k0, v0⟩
    by_cases h0 : k0 = k
    · subst h0
      simp only [aupdate, if_pos rfl] at h
      rcases List.mem_cons.1 h with h | h
      · exact Or.inl h
      · exact Or.inr (List.mem_cons_of_mem _ h)
    · simp only [aupdate, if_neg h0] at h
      rcases List.mem_cons.1 h with h | h
      · exact Or.inr (List.mem_cons.2 (Or.inl h))
      · rcases ih h with h | h
        · exact Or.inl h
        · exact Or.inr (List.mem_cons_of_mem _ h)

theorem mem_aupdate_of_mem {κ α : Type} [DecidableEq κ] {k : κ} (v : α) {l : List (κ × α)}
    {p : κ × α} (hp : p ∈ l) (hne : p.1 ≠ k) : p ∈ aupdate k v l := by
  induction l with
  | nil => cases hp
  | cons q t ih =>
    rcases q with ⟨k0, v0⟩
    rcases List.mem_cons.1 hp with h | h
    · subst h
      simp only [aupdate, if_neg hne]
      exact List.mem_cons_self _ _
    · by_cases h0 : k0 = k
      · subst h0
        simp only [aupdate, if_pos rfl]
        exact List.mem_cons_of_mem _ h
      · simp only [aupdate, if_neg h0]
        exact List.mem_cons_of_mem _ (ih h)

theorem akeys_aupdate_nodup {κ α : Type} [DecidableEq κ] (k : κ) (v : α) {l : List (κ × α)}
    (h : (akeys l).Nodup) : (akeys (aupdate k v l)).Nodup := by
  induction l with
  | nil => simp [akeys, aupdate]
  | cons q t ih =>
    rcases q with ⟨k0, v0⟩
    simp only [akeys, List.map_cons, List.nodup_cons] at h
    by_cases h0 : k0 = k
    · subst h0
      simpa [akeys, aupdate, List.nodup_cons] using h
    · simp only [aupdate, if_neg h0, akeys, List.map_cons, List.nodup_cons]
      refine ⟨fun hc => ?_, ih h.2⟩
      have : k0 ∈ akeys (aupdate k v t) := hc
      rcases List.mem_map.1 this with ⟨p, hp, hpk⟩
      rcases mem_aupdate hp with h1 | h1
      · exact h0 (by rw [← hpk, h1])
      · exact h.1 (by rw [← hpk]; exact List.mem_map_of_mem _ h1)

theorem alookup_mem {κ α : Type} [DecidableEq κ] {k : κ} {v : α} {l : List (κ × α)}
    (h : alookup k l = some v) : (k, v) ∈ l := by
  induction l with
  | nil => simp [alookup] at h
  | cons q t ih =>
    rcases q with ⟨k0, v0⟩
    by_cases h0 : k0 = k
    · subst h0
      simp only [alookup, if_pos rfl] at h
      have hv : v0 = v := by simpa using h
      exact hv ▸ List.mem_cons_self _ _
    · simp only [alookup, if_neg h0] at h
      exact List.mem_cons_of_mem _ (ih h)

theorem alookup_of_mem_nodup {κ α : Type} [DecidableEq κ] {l : List (κ × α)} {p : κ × α}
    (hn : (akeys l).Nodup) (hp : p ∈ l) : alookup p.1 l = some p.2 := by
  induction l with
  | nil => cases hp
  | cons q t ih =>
    rcases q with ⟨k0, v0⟩
    simp only [akeys, List.map_cons, List.nodup_cons] at hn
    rcases List.mem_cons.1 hp with h | h
    · subst h
      simp [alookup]
    · have hne : k0 ≠ p.1 := fun he => hn.1 (he ▸ List.mem_map_of_mem _ h)
      simp only [alookup, if_neg hne]
      exact ih hn.2 h

theorem mem_eq_of_akeys_nodup {κ α : Type} [DecidableEq κ] {l : List (κ × α)} {p q : κ × α}
    (hn : (akeys l).Nodup) (hp : p ∈ l) (hq : q ∈ l) (hk : p.1 = q.1) : p = q := by
  have h1 := alookup_of_mem_nodup hn hp
  have h2 := alookup_of_mem_nodup hn hq
  rw [hk, h2] at h1
  exact Prod.ext hk (Option.some.inj h1).symm

/-! ## The canonical flow identity is order-invariant -/

theorem canonFlow_swap (src : Nat) (srcPort : Port) (dst : Nat) (dstPort : Port) :
    canonFlow src srcPort dst dstPort = canonFlow dst dstPort src srcPort := by
  unfold canonFlow
  apply List.eq_of_perm_of_sorted (r := FlowElem.rel)
  · refine (List.perm_insertionSort _ _).trans
      (List.Perm.trans ?_ (List.perm_insertionSort _ _).symm)
    exact @List.perm_append_comm _ [FlowElem.num src, FlowElem.ofPort srcPort]
      [FlowElem.num dst, FlowElem.ofPort dstPort]
  · exact List.sorted_insertionSort _ _
  · exact List.sorted_insertionSort _ _

/-- C7: For every non-TCP observation, exchanging its (source address,
source port) pair with its (destination address, destination port) pair
yields the same canonical flow-identity key, so a request and its reply
map to the same FlowSeenSet entry. -/
theorem C7_flow_identity_symmetric (o : Obs) :
    canonFlow o.src o.srcPort o.dst o.dstPort = canonFlow o.dst o.dstPort o.src o.srcPort ∧
    AuxKey.flow (canonFlow o.src o.srcPort o.dst o.dstPort) =
      AuxKey.flow (canonFlow o.dst o.dstPort o.src o.srcPort) := by
  refine ⟨canonFlow_swap _ _ _ _, ?_⟩
  rw [canonFlow_swap]

/-! ## C1: the TCP path counts exactly the non-local pure-SYN packets -/

/-- A decoded TCP observation always has a non-local source: the decoder
returns at line 160-161 before parsing ports/flags when the source is
local. -/
theorem decodeFrame_tcp_nonlocal {cfg : Config} {dl : Datalink} {packet : List Nat} {o : Obs}
    (h : decodeFrame cfg dl packet = Except.ok (some o)) (h6 : o.protocol = 6) :
    isLocal cfg o.src = false := by
  unfold decodeFrame at h
  rcases hp : parseEthIP dl packet with e | oi
  · simp only [hp] at h
    cases h
  rcases oi with _ | info
  · simp only [hp] at h
    cases h
  simp only [hp] at h
  rcases hl : IPPROTO_LUT info.protocol with _ | pn
  · simp only [hl] at h
    cases h
  simp only [hl] at h
  split_ifs at h with h1 h2 h3 h4 h5 h6' h7 h8 h9 h10 <;> (try cases h) <;> simp_all

theorem aggregate_tcp_nonsyn (cfg : Config) (st : SensorState) (o : Obs) (sec : Nat)
    (h6 : o.protocol = 6) (hf : o.flags ≠ 2) :
    aggregate cfg st o sec = st := by
  unfold aggregate
  simp [h6, hf]

/-- C1: For every processed IPv4 TCP packet, the aggregation state changes
only when the source address is not local and the TCP flag byte equals
exactly the SYN-only pattern (value 2); for such a packet the source
address is added to the set TrafficTable[(proto, dst_ip, dst_port)], and
the StatTable entry keyed by ((proto, dst_ip, dst_port), src_ip) is
created as (capture-second, capture-second, 1) if absent, otherwise its
last_seen is set to the capture second and its count is incremented by 1;
a TCP packet with any other flag combination leaves both tables
unchanged (and nothing else changes for a SYN packet). -/
theorem C1_tcp_syn_filter (cfg : Config) (dl : Datalink) (packet : List Nat)
    (sec : Nat) (st : SensorState) (o : Obs)
    (hdec : decodeFrame cfg dl packet = Except.ok (some o))
    (h6 : o.protocol = 6) :
    isLocal cfg o.src = false ∧
    (o.flags ≠ 2 → aggregate cfg st o sec = st) ∧
    (o.flags = 2 →
      o.src ∈ (alookup (o.proto, o.dst, o.dstPort) (aggregate cfg st o sec).traffic).getD [] ∧
      (alookup (AuxKey.stat ((o.proto, o.dst, o.dstPort), o.src)) st.aux = none →
        statLookup ((o.proto, o.dst, o.dstPort), o.src) (aggregate cfg st o sec) =
          some (sec, sec, 1)) ∧
      (∀ f l c, statLookup ((o.proto, o.dst, o.dstPort), o.src) st = some (f, l, c) →
        statLookup ((o.proto, o.dst, o.dstPort), o.src) (aggregate cfg st o sec) =
          some (f, sec, c + 1)) ∧
      (∀ dk', dk' ≠ (o.proto, o.dst, o.dstPort) →
        alookup dk' (aggregate cfg st o sec).traffic = alookup dk' st.traffic) ∧
      (∀ k, k ≠ AuxKey.stat ((o.proto, o.dst, o.dstPort), o.src) →
        alookup k (aggregate cfg st o sec).aux = alookup k st.aux)) := by
  refine ⟨decodeFrame_tcp_nonlocal hdec h6, aggregate_tcp_nonsyn cfg st o sec h6, ?_⟩
  intro hf
  unfold aggregate
  simp only [h6, if_pos rfl, hf]
  set dk : DstKey := (o.proto, o.dst, o.dstPort) with hdk
  set sk : StatKey := (dk, o.src) with hsk
  refine ⟨?_, ?_, ?_, ?_, ?_⟩
  · rcases ha : alookup (AuxKey.stat sk) st.aux with _ | v
    · simp [ha, alookup_aupdate_self, List.mem_insert_self]
    · rcases v with _ | ⟨f, l, c⟩ <;> simp [ha, alookup_aupdate_self, List.mem_insert_self]
  · intro hnone
    simp [hnone, statLookup, alookup_aupdate_self]
  · intro f l c hsome
    unfold statLookup at hsome
    rcases ha : alookup (AuxKey.stat sk) st.aux with _ | v
    · rw [ha] at hsome
      cases hsome
    · rcases v with _ | ⟨f', l', c'⟩
      · rw [ha] at hsome
        cases hsome
      · rw [ha] at hsome
        have : f' = f ∧ l' = l ∧ c' = c := by simpa using hsome
        obtain ⟨rfl, rfl, rfl⟩ := this
        simp [ha, statLookup, alookup_aupdate_self]
  · intro dk' hne
    rcases ha : alookup (AuxKey.stat sk) st.aux with _ | v
    · simpa [ha] using alookup_aupdate_ne _ _ (fun h => hne h.symm)
    · rcases v with _ | ⟨f, l, c⟩ <;>
        simpa [ha] using alookup_aupdate_ne _ _ (fun h => hne h.symm)
  · intro k hne
    rcases ha : alookup (AuxKey.stat sk) st.aux with _ | v
    · simpa [ha] using alookup_aupdate_ne _ _ (fun h => hne h.symm)
    · rcases v with _ | ⟨f, l, c⟩
      · simp [ha]
      · simpa [ha] using alookup_aupdate_ne _ _ (fun h => hne h.symm)

/-- Witness for C1: the concrete SYN frame `wFrame` decodes to `wSyn`,
whose source is not local, and aggregating it into the empty state
creates the statistics entry (5, 5, 1). -/
theorem C1_tcp_syn_filter_witness :
    decodeFrame wcfg Datalink.en10mb wFrame = Except.ok (some wSyn) ∧
    isLocal wcfg wSyn.src = false ∧
    statLookup (("tcp", wD, Port.num 22), wS) (aggregate wcfg emptyState wSyn 5) =
      some (5, 5, 1) := by
  have hdec : decodeFrame wcfg Datalink.en10mb wFrame = Except.ok (some wSyn) := by rfl
  have h := C1_tcp_syn_filter wcfg Datalink.en10mb wFrame 5 emptyState wSyn hdec rfl
  exact ⟨hdec, h.1, (h.2.2 rfl).2.1 rfl⟩

/-! ## C3: a local-origin first packet claims the flow identity -/

/-- C3: For every non-TCP packet whose canonical flow identity is not yet
in FlowSeenSet, the identity is marked seen before the local-origin
check; hence if the packet's source is local, nothing is recorded for it
(the state changes only by the flow marker), and every later non-TCP
packet with the same canonical flow identity, while that identity remains
seen — including an externally-originated one — adds no TrafficTable
contact and creates no StatTable entry. -/
theorem C3_nontcp_local_claims_flow (cfg : Config) (st : SensorState) (o : Obs) (sec : Nat)
    (h6 : o.protocol ≠ 6)
    (hnew : alookup (AuxKey.flow (canonFlow o.src o.srcPort o.dst o.dstPort)) st.aux = none) :
    alookup (AuxKey.flow (canonFlow o.src o.srcPort o.dst o.dstPort))
      (aggregate cfg st o sec).aux = some AuxVal.mark ∧
    (isLocal cfg o.src = true →
      aggregate cfg st o sec =
        ⟨st.traffic,
         aupdate (AuxKey.flow (canonFlow o.src o.srcPort o.dst o.dstPort)) AuxVal.mark st.aux⟩) ∧
    (∀ st2 o2 sec2, o2.protocol ≠ 6 →
      canonFlow o2.src o2.srcPort o2.dst o2.dstPort = canonFlow o.src o.srcPort o.dst o.dstPort →
      (alookup (AuxKey.flow (canonFlow o.src o.srcPort o.dst o.dstPort)) st2.aux).isSome →
      (aggregate cfg st2 o2 sec2).traffic = st2.traffic ∧
      ∀ k, (alookup k (aggregate cfg st2 o2 sec2).aux).isSome ↔
        (alookup k st2.aux).isSome) := by
  refine ⟨?_, ?_, ?_⟩
  · unfold aggregate
    simp only [h6, if_neg, hnew]
    by_cases hloc : isLocal cfg o.src <;>
      simp [hloc, hnew, alookup_aupdate_self, alookup_aupdate_ne]
  · intro hloc
    unfold aggregate
    simp [h6, hnew, hloc]
  · intro st2 o2 sec2 h26 hfk hseen
    unfold aggregate
    simp only [h26, if_neg]
    rw [hfk]
    rcases hfl : alookup (AuxKey.flow (canonFlow o.src o.srcPort o.dst o.dstPort)) st2.aux
      with _ | v
    · rw [hfl] at hseen
      cases hseen
    · rcases ha : alookup
        (AuxKey.stat ((o2.proto, o2.dst, o2.dstPort), o2.src)) st2.aux with _ | w
      · simp [ha]
      · rcases w with _ | ⟨f, l, c⟩
        · simp [ha]
        · simp only [ha]
          refine ⟨rfl, fun k => ?_⟩
          by_cases hk : AuxKey.stat ((o2.proto, o2.dst, o2.dstPort), o2.src) = k
          · subst hk
            simp [alookup_aupdate_self, ha]
          · simp [alookup_aupdate_ne _ _ hk]

/-- Witness for C3: a local-origin UDP packet records only the flow
marker, and the later external packet on the same canonical flow adds no
TrafficTable contact. -/
theorem C3_nontcp_local_claims_flow_witness :
    aggregate wcfg emptyState wUdpLocal 5 =
      ⟨[], [(AuxKey.flow (canonFlow wD (Port.num 53) wS (Port.num 1000)), AuxVal.mark)]⟩ ∧
    (aggregate wcfg (aggregate wcfg emptyState wUdpLocal 5) wUdp 7).traffic =
      (aggregate wcfg emptyState wUdpLocal 5).traffic := by
  have h := C3_nontcp_local_claims_flow wcfg emptyState wUdpLocal 5 (by decide) (by rfl)
  constructor
  · have hb := h.2.1 (by decide)
    rw [hb]
    rfl
  · have hseen : (alookup (AuxKey.flow (canonFlow wD (Port.num 53) wS (Port.num 1000)))
        (aggregate wcfg emptyState wUdpLocal 5).aux).isSome := by
      have h1 := h.1
      rw [show canonFlow wD (Port.num 53) wS (Port.num 1000) =
        canonFlow wUdpLocal.src wUdpLocal.srcPort wUdpLocal.dst wUdpLocal.dstPort from rfl, h1]
      rfl
    exact (h.2.2 (aggregate wcfg emptyState wUdpLocal 5) wUdp 7 (by decide)
      (canonFlow_swap wS (Port.num 1000) wD (Port.num 53)) hseen).1

/-! ## C9: parse failures never escape packet processing -/

/-- C9: For every raw frame, including truncated, malformed, or
unsupported ones, the per-packet decode/aggregate step never propagates a
parse error: a decode error leaves the aggregation state unchanged (the
frame is skipped, the loop continues), and in particular a frame too
short for the link-layer header always yields such an error rather than a
crash. -/
theorem C9_parse_errors_skip (cfg : Config) (dl : Datalink) (packet : List Nat)
    (sec : Nat) (st : SensorState) :
    (∀ e, decodeFrame cfg dl packet = Except.error e →
      processPacket cfg dl packet sec st = st) ∧
    (packet.length < ETH_LENGTH → decodeFrame cfg dl packet = Except.error ()) := by
  constructor
  · intro e he
    unfold processPacket
    rw [he]
  · intro hlen
    have hp : parseEthIP dl packet = Except.error () := by
      unfold parseEthIP
      rcases dl
      · simp [hlen]
      · have h2 : packet.length - 2 < ETH_LENGTH := by
          unfold ETH_LENGTH at hlen ⊢
          omega
        simp [List.length_drop, h2]
    unfold decodeFrame
    rw [hp]

/-- Witness for C9: the empty frame errors out of decoding and leaves the
state untouched. -/
theorem C9_parse_errors_skip_witness :
    processPacket wcfg Datalink.en10mb [] 0 emptyState = emptyState ∧
    decodeFrame wcfg Datalink.en10mb [] = Except.error () := by
  have h := C9_parse_errors_skip wcfg Datalink.en10mb [] 0 emptyState
  have he := h.2 (by decide)
  exact ⟨h.1 () he, he⟩

/-! ## C4: an ICMP echo reply does not touch the echo's statistics -/

/-- Counterexample to C4 as stated: after an ICMP echo from 203.0.113.5
to 10.0.0.2 at second 100 and its reply at second 200, the echo's
StatTable entry still reads (100, 100, 1) — the reply did *not* update
last_seen/count (the statistics key is direction-sensitive, and the
reply's own key was never created), contradicting "the reply packet's
only effect is to update last_seen and count of the existing StatTable
entry". -/
theorem C4_counterexample :
    statLookup (("icmp", wD, Port.dash), wS)
      (aggregate wcfg
        (aggregate wcfg emptyState ⟨"icmp", 1, wS, wD, Port.dash, Port.dash, 0⟩ 100)
        ⟨"icmp", 1, wD, wS, Port.dash, Port.dash, 0⟩ 200) = some (100, 100, 1) ∧
    statLookup (("icmp", wS, Port.dash), wD)
      (aggregate wcfg
        (aggregate wcfg emptyState ⟨"icmp", 1, wS, wD, Port.dash, Port.dash, 0⟩ 100)
        ⟨"icmp", 1, wD, wS, Port.dash, Port.dash, 0⟩ 200) = none ∧
    ¬(100 : Nat) = 200 := by
  refine ⟨by rfl, by rfl, by decide⟩

/-- C4 (amended): processing an ICMP echo from an external source followed
by the echo reply (source and destination exchanged, same canonical flow
identity) registers exactly one TrafficTable contact (from the echo) with
one StatTable entry (capture-second, capture-second, 1); the reply has
*no* effect at all: because the StatTable key is direction-sensitive and
the reply's own key was never created, it adds no contact, creates no
entry, and leaves the whole state unchanged. -/
theorem C4_icmp_reply_no_update (cfg : Config) (S D t1 t2 : Nat)
    (hne : S ≠ D) (hloc : isLocal cfg S = false) :
    (aggregate cfg emptyState ⟨"icmp", 1, S, D, Port.dash, Port.dash, 0⟩ t1).traffic =
      [(("icmp", D, Port.dash), [S])] ∧
    statLookup (("icmp", D, Port.dash), S)
      (aggregate cfg emptyState ⟨"icmp", 1, S, D, Port.dash, Port.dash, 0⟩ t1) =
      some (t1, t1, 1) ∧
    aggregate cfg (aggregate cfg emptyState ⟨"icmp", 1, S, D, Port.dash, Port.dash, 0⟩ t1)
        ⟨"icmp", 1, D, S, Port.dash, Port.dash, 0⟩ t2 =
      aggregate cfg emptyState ⟨"icmp", 1, S, D, Port.dash, Port.dash, 0⟩ t1 := by
  have hst1 : aggregate cfg emptyState ⟨"icmp", 1, S, D, Port.dash, Port.dash, 0⟩ t1 =
      ⟨[((("icmp" : String), D, Port.dash), [S])],
       [(AuxKey.flow (canonFlow S Port.dash D Port.dash), AuxVal.mark),
        (AuxKey.stat ((("icmp" : String), D, Port.dash), S), AuxVal.stat (t1, t1, 1))]⟩ := by
    unfold aggregate
    simp [emptyState, alookup, aupdate, hloc, List.insert]
  have hswap : canonFlow D Port.dash S Port.dash = canonFlow S Port.dash D Port.dash :=
    canonFlow_swap D Port.dash S Port.dash
  refine ⟨by rw [hst1], by rw [hst1]; simp [statLookup, alookup], ?_⟩
  rw [hst1]
  unfold aggregate
  simp [hswap, alookup, aupdate, hne, Ne.symm hne]

/-- Witness for the amended C4 at concrete addresses and seconds. -/
theorem C4_icmp_reply_no_update_witness :
    (aggregate wcfg emptyState ⟨"icmp", 1, wS, wD, Port.dash, Port.dash, 0⟩ 100).traffic =
      [(("icmp", wD, Port.dash), [wS])] ∧
    aggregate wcfg (aggregate wcfg emptyState ⟨"icmp", 1, wS, wD, Port.dash, Port.dash, 0⟩ 100)
        ⟨"icmp", 1, wD, wS, Port.dash, Port.dash, 0⟩ 200 =
      aggregate wcfg emptyState ⟨"icmp", 1, wS, wD, Port.dash, Port.dash, 0⟩ 100 := by
  have h := C4_icmp_reply_no_update wcfg wS wD 100 200 (by decide) (by decide)
  exact ⟨h.1, h.2.2⟩

/-! ## C8: statistics entries under monotone capture seconds -/

/-- Any single aggregation step either leaves a given statistics entry
unchanged, creates/overwrites it as (sec, sec, 1), or folds one packet in
as (first_seen, sec, count + 1). -/
theorem statLookup_aggregate (cfg : Config) (st : SensorState) (o : Obs) (sec : Nat)
    (sk : StatKey) :
    statLookup sk (aggregate cfg st o sec) = statLookup sk st ∨
    statLookup sk (aggregate cfg st o sec) = some (sec, sec, 1) ∨
    ∃ f l c, statLookup sk st = some (f, l, c) ∧
      statLookup sk (aggregate cfg st o sec) = some (f, sec, c + 1) := by
  have hinj : ∀ sk' : StatKey, sk' ≠ sk → AuxKey.stat sk' ≠ AuxKey.stat sk := by
    intro sk' h he
    exact h (by injection he)
  set sk0 : StatKey := ((o.proto, o.dst, o.dstPort), o.src) with hsk0
  unfold aggregate
  by_cases h6 : o.protocol = 6
  · rw [if_pos h6]
    by_cases hf : o.flags = 2
    · rw [if_pos hf]
      rcases ha : alookup (AuxKey.stat sk0) st.aux with _ | v
      · by_cases hsk : sk0 = sk
        · subst hsk
          right
          left
          simp [statLookup, ha, alookup_aupdate_self]
        · left
          simp [statLookup, ha, alookup_aupdate_ne _ _ (hinj _ hsk)]
      · rcases v with _ | ⟨f, l, c⟩
        · left
          simp [statLookup, ha]
        · by_cases hsk : sk0 = sk
          · subst hsk
            right
            right
            exact ⟨f, l, c, by simp [statLookup, ha],
              by simp [statLookup, ha, alookup_aupdate_self]⟩
          · left
            simp [statLookup, ha, alookup_aupdate_ne _ _ (hinj _ hsk)]
    · rw [if_neg hf]
      left
      rfl
  · rw [if_neg h6]
    rcases hfl : alookup
        (AuxKey.flow (canonFlow o.src o.srcPort o.dst o.dstPort)) st.aux with _ | w
    · simp only [hfl]
      by_cases hloc : isLocal cfg o.src
      · left
        simp [hloc, statLookup, alookup_aupdate_ne]
      · simp only [hloc, Bool.false_eq_true, if_false]
        by_cases hsk : sk0 = sk
        · subst hsk
          right
          left
          simp [statLookup, alookup_aupdate_self]
        · left
          simp [statLookup, alookup_aupdate_ne _ _ (hinj _ hsk),
            alookup_aupdate_ne]
    · simp only [hfl]
      rcases ha : alookup (AuxKey.stat sk0) st.aux with _ | v
      · simp [ha, statLookup]
      · rcases v with _ | ⟨f, l, c⟩
        · simp [ha, statLookup]
        · by_cases hsk : sk0 = sk
          · subst hsk
            right
            right
            exact ⟨f, l, c, by simp [statLookup, ha],
              by simp [statLookup, ha, alookup_aupdate_self]⟩
          · left
            simp [statLookup, ha, alookup_aupdate_ne _ _ (hinj _ hsk)]

theorem statBounded_aggregate (cfg : Config) (st : SensorState) (o : Obs) (sec t : Nat)
    (hb : StatBounded st t) (ht : t ≤ sec) :
    StatBounded (aggregate cfg st o sec) sec := by
  intro sk f l c h
  rcases statLookup_aggregate cfg st o sec sk with he | he | ⟨f', l', c', hold, hnew⟩
  · rw [he] at h
    rcases hb sk f l c h with ⟨h1, h2⟩
    exact ⟨h1, le_trans h2 ht⟩
  · rw [he] at h
    obtain ⟨rfl, rfl, rfl⟩ : sec = f ∧ sec = l ∧ 1 = c := by
      have h' := h
      simp only [Option.some.injEq, Prod.mk.injEq] at h'
      exact ⟨h'.1, h'.2.1, h'.2.2⟩
    exact ⟨le_refl _, le_refl _⟩
  · rw [hnew] at h
    obtain ⟨rfl, rfl, rfl⟩ : f' = f ∧ sec = l ∧ c' + 1 = c := by
      simpa using h
    rcases hb sk f' l' c' hold with ⟨h1, h2⟩
    exact ⟨le_trans h1 (le_trans h2 ht), le_refl _⟩

theorem statBounded_trace (cfg : Config) :
    ∀ (ps : List (Obs × Nat)) (st : SensorState) (t : Nat),
    StatBounded st t → List.Chain (· ≤ ·) t (ps.map Prod.snd) →
    ∃ u, StatBounded (processTrace cfg st ps) u := by
  intro ps
  induction ps with
  | nil => exact fun st t hb _ => ⟨t, hb⟩
  | cons p rest ih =>
    intro st t hb hc
    rcases p with ⟨o, sec⟩
    rw [List.map_cons] at hc
    cases hc with
    | cons hts hc' =>
      exact ih (aggregate cfg st o sec) sec
        (statBounded_aggregate cfg st o sec t hb hts) hc'

/-- C8 (amended): in every state reachable by processing a sequence of
packets whose capture seconds are non-decreasing (the invariant the claim
asserts fails for arbitrary capture seconds, see the counterexample),
every StatTable entry satisfies first_seen ≤ last_seen; and each
processing step folds qualifying packets one at a time: any entry is
either untouched, created as (sec, sec, 1), or advanced from
(f, l, c) to (f, sec, c + 1) — so count counts exactly the packets folded
into the key since it was created. -/
theorem C8_stat_invariant (cfg : Config) (ps : List (Obs × Nat))
    (hmono : List.Chain' (· ≤ ·) (ps.map Prod.snd)) :
    (∀ sk f l c, statLookup sk (processTrace cfg emptyState ps) = some (f, l, c) → f ≤ l) ∧
    (∀ st o sec sk, statLookup sk (aggregate cfg st o sec) = statLookup sk st ∨
      statLookup sk (aggregate cfg st o sec) = some (sec, sec, 1) ∨
      ∃ f l c, statLookup sk st = some (f, l, c) ∧
        statLookup sk (aggregate cfg st o sec) = some (f, sec, c + 1)) := by
  constructor
  · have hchain : List.Chain (· ≤ ·) 0 (ps.map Prod.snd) := by
      rcases hps : ps.map Prod.snd with _ | ⟨a, tl⟩
      · exact List.Chain.nil
      · rw [hps] at hmono
        exact List.Chain.cons (Nat.zero_le a) hmono
    have hempty : StatBounded emptyState 0 := by
      intro sk f l c h
      simp [statLookup, alookup, emptyState] at h
    obtain ⟨u, hu⟩ := statBounded_trace cfg ps emptyState 0 hempty hchain
    exact fun sk f l c h => (hu sk f l c h).1
  · exact statLookup_aggregate cfg

/-- Witness for C8: a monotone two-SYN trace yields the entry (3, 10, 2)
with 3 ≤ 10. -/
theorem C8_stat_invariant_witness :
    statLookup (("tcp", wD, Port.num 22), wS)
      (processTrace wcfg emptyState [(wSyn, 3), (wSyn, 10)]) = some (3, 10, 2) ∧
    (3 : Nat) ≤ 10 := by
  have h := C8_stat_invariant wcfg [(wSyn, 3), (wSyn, 10)]
    (List.Chain.cons (by omega) List.Chain.nil)
  exact ⟨by rfl, h.1 (("tcp", wD, Port.num 22), wS) 3 10 2 (by rfl)⟩

/-- Counterexample to C8 as stated: with the (permitted by the claim)
non-monotone capture seconds 10 then 3, the entry ends as (10, 3, 2), and
first_seen ≤ last_seen fails. -/
theorem C8_counterexample :
    statLookup (("tcp", wD, Port.num 22), wS)
      (processTrace wcfg emptyState [(wSyn, 10), (wSyn, 3)]) = some (10, 3, 2) ∧
    ¬(10 : Nat) ≤ 3 := ⟨by rfl, by decide⟩

/-! ## C10: every traffic contact has a statistics entry; flush total -/

/-- `statLookup` ignores the traffic component. -/
theorem statLookup_tr (sk : StatKey) (tr tr' : List (DstKey × List Nat))
    (aux : List (AuxKey × AuxVal)) :
    statLookup sk ⟨tr, aux⟩ = statLookup sk ⟨tr', aux⟩ := rfl

theorem goodAux_aupdate_stat {st : SensorState} (h : GoodAux st) (sk0 : StatKey)
    (v0 : Nat × Nat × Nat) (tr' : List (DstKey × List Nat)) :
    GoodAux ⟨tr', aupdate (AuxKey.stat sk0) (AuxVal.stat v0) st.aux⟩ := by
  intro sk
  show alookup (AuxKey.stat sk) (aupdate (AuxKey.stat sk0) (AuxVal.stat v0) st.aux) ≠
    some AuxVal.mark
  rw [alookup_aupdate]
  by_cases hk : AuxKey.stat sk0 = AuxKey.stat sk
  · simp [hk]
  · simp only [hk, if_false]
    exact h sk

theorem goodAux_aupdate_flow {st : SensorState} (h : GoodAux st) (fk : List FlowElem)
    (w : AuxVal) (tr' : List (DstKey × List Nat)) :
    GoodAux ⟨tr', aupdate (AuxKey.flow fk) w st.aux⟩ := by
  intro sk
  show alookup (AuxKey.stat sk) (aupdate (AuxKey.flow fk) w st.aux) ≠ some AuxVal.mark
  rw [alookup_aupdate_ne]
  · exact h sk
  · intro he
    cases he

/-- The traffic-side preservation argument shared by the three mutation
sites (TCP SYN, first packet of a new non-TCP flow, startup reseeding):
adding `src` under `dk0` while the statistics table keeps every other
entry and gains/keeps one for `(dk0, src)`. -/
theorem trafficStatInv_update (tr : List (DstKey × List Nat))
    (aux aux2 : List (AuxKey × AuxVal)) (dk0 : DstKey) (src : Nat) (v0 : Nat × Nat × Nat)
    (hold : ∀ sk : StatKey, sk ≠ (dk0, src) →
        statLookup sk ⟨tr, aux2⟩ = statLookup sk ⟨tr, aux⟩)
    (hnew : statLookup ((dk0 : DstKey), src) ⟨tr, aux2⟩ = some v0)
    (hinv : TrafficStatInv ⟨tr, aux⟩) :
    TrafficStatInv ⟨aupdate dk0 (((alookup dk0 tr).getD []).insert src) tr, aux2⟩ := by
  intro p hp s hs
  have hgen : ∀ q : StatKey, (∃ v, statLookup q ⟨tr, aux⟩ = some v) →
      ∃ v, statLookup q ⟨tr, aux2⟩ = some v := by
    intro q hq
    by_cases hqk : q = (dk0, src)
    · exact ⟨v0, hqk ▸ hnew⟩
    · rcases hq with ⟨v, hv⟩
      exact ⟨v, (hold q hqk).trans hv⟩
  rcases mem_aupdate hp with he | hp'
  · have hp1 : p.1 = dk0 := by rw [he]
    have hp2 : p.2 = ((alookup dk0 tr).getD []).insert src := by rw [he]
    rw [hp2] at hs
    rcases List.mem_insert_iff.1 hs with rfl | hs'
    · exact ⟨v0, by rw [hp1]; exact hnew⟩
    · rcases htr : alookup dk0 tr with _ | srcs
      · rw [htr] at hs'
        cases hs'
      · rw [htr] at hs'
        obtain ⟨v, hv⟩ := hinv (dk0, srcs) (alookup_mem htr) s hs'
        rw [hp1]
        exact hgen (dk0, s) ⟨v, hv⟩
  · exact hgen (p.1, s) (hinv p hp' s hs)

/-- Aggregation preserves the contact/statistics correspondence and the
absence of markers at statistics keys. -/
theorem inv_aggregate (cfg : Config) (st : SensorState) (o : Obs) (sec : Nat)
    (h1 : TrafficStatInv st) (h2 : GoodAux st) :
    TrafficStatInv (aggregate cfg st o sec) ∧ GoodAux (aggregate cfg st o sec) := by
  obtain ⟨tr, aux⟩ := st
  set sk0 : StatKey := ((o.proto, o.dst, o.dstPort), o.src) with hsk0
  set dk0 : DstKey := (o.proto, o.dst, o.dstPort) with hdk0
  unfold aggregate
  by_cases h6 : o.protocol = 6
  · rw [if_pos h6]
    by_cases hf : o.flags = 2
    · rw [if_pos hf]
      rcases ha : alookup (AuxKey.stat sk0) aux with _ | v
      · refine ⟨trafficStatInv_update tr aux _ dk0 o.src (sec, sec, 1) ?_ ?_ h1,
          goodAux_aupdate_stat h2 sk0 (sec, sec, 1) _⟩
        · intro sk hsk
          show statLookup sk ⟨tr, aupdate _ _ aux⟩ = _
          unfold statLookup
          rw [alookup_aupdate_ne]
          intro he
          exact hsk (AuxKey.stat.inj he).symm
        · show statLookup sk0 ⟨tr, aupdate _ _ aux⟩ = _
          unfold statLookup
          rw [alookup_aupdate_self]
      · rcases v with _ | ⟨f, l, c⟩
        · exact absurd ha (h2 sk0)
        · refine ⟨trafficStatInv_update tr aux _ dk0 o.src (f, sec, c + 1) ?_ ?_ h1,
            goodAux_aupdate_stat h2 sk0 (f, sec, c + 1) _⟩
          · intro sk hsk
            show statLookup sk ⟨tr, aupdate _ _ aux⟩ = _
            unfold statLookup
            rw [alookup_aupdate_ne]
            intro he
            exact hsk (AuxKey.stat.inj he).symm
          · show statLookup sk0 ⟨tr, aupdate _ _ aux⟩ = _
            unfold statLookup
            rw [alookup_aupdate_self]
    · rw [if_neg hf]
      exact ⟨h1, h2⟩
  · rw [if_neg h6]
    rcases hfl : alookup
        (AuxKey.flow (canonFlow o.src o.srcPort o.dst o.dstPort)) aux with _ | w
    · simp only [hfl]
      by_cases hloc : isLocal cfg o.src
      · simp only [hloc, if_true]
        refine ⟨fun p hp s hs => ?_, goodAux_aupdate_flow h2 _ _ _⟩
        obtain ⟨v, hv⟩ := h1 p hp s hs
        refine ⟨v, ?_⟩
        show statLookup (p.1, s) ⟨tr, aupdate _ _ aux⟩ = some v
        unfold statLookup
        rw [alookup_aupdate_ne]
        · exact hv
        · intro he
          cases he
      · simp only [hloc, Bool.false_eq_true, if_false]
        have hga : GoodAux ⟨tr, aupdate (AuxKey.flow (canonFlow o.src o.srcPort o.dst o.dstPort))
            AuxVal.mark aux⟩ := goodAux_aupdate_flow h2 _ _ _
        refine ⟨trafficStatInv_update tr aux _ dk0 o.src (sec, sec, 1) ?_ ?_ h1,
          goodAux_aupdate_stat hga sk0 (sec, sec, 1) _⟩
        · intro sk hsk
          show statLookup sk ⟨tr, aupdate _ _ (aupdate _ _ aux)⟩ = _
          unfold statLookup
          rw [alookup_aupdate_ne, alookup_aupdate_ne]
          · intro he
            cases he
          · intro he
            exact hsk (AuxKey.stat.inj he).symm
        · show statLookup sk0 ⟨tr, aupdate _ _ (aupdate _ _ aux)⟩ = _
          unfold statLookup
          rw [alookup_aupdate_self]
    · simp only [hfl]
      rcases ha : alookup (AuxKey.stat sk0) aux with _ | v
      · exact ⟨h1, h2⟩
      · rcases v with _ | ⟨f, l, c⟩
        · exact ⟨h1, h2⟩
        · constructor
          · intro p hp s hs
            obtain ⟨v, hv⟩ := h1 p hp s hs
            by_cases hqk : ((p.1 : DstKey), s) = sk0
            · refine ⟨(f, sec, c + 1), ?_⟩
              show statLookup (p.1, s) ⟨tr, aupdate _ _ aux⟩ = _
              rw [hqk]
              unfold statLookup
              rw [alookup_aupdate_self]
            · refine ⟨v, ?_⟩
              show statLookup (p.1, s) ⟨tr, aupdate _ _ aux⟩ = some v
              unfold statLookup
              rw [alookup_aupdate_ne]
              · exact hv
              · intro he
                exact hqk (AuxKey.stat.inj he).symm
          · exact goodAux_aupdate_stat h2 sk0 (f, sec, c + 1) _

/-- Startup reseeding preserves both invariants. -/
theorem inv_reseedRow (st : SensorState) (r : Row)
    (h1 : TrafficStatInv st) (h2 : GoodAux st) :
    TrafficStatInv (reseedRow st r) ∧ GoodAux (reseedRow st r) := by
  obtain ⟨tr, aux⟩ := st
  unfold reseedRow
  refine ⟨trafficStatInv_update tr aux _ (r.proto, r.dst, r.dstPort) r.src
      (r.first, r.last, r.count) ?_ ?_ h1,
    goodAux_aupdate_stat h2 _ _ _⟩
  · intro sk hsk
    show statLookup sk ⟨tr, aupdate _ _ aux⟩ = _
    unfold statLookup
    rw [alookup_aupdate_ne]
    intro he
    exact hsk (AuxKey.stat.inj he).symm
  · show statLookup ((r.proto, r.dst, r.dstPort), r.src) ⟨tr, aupdate _ _ aux⟩ = _
    unfold statLookup
    rw [alookup_aupdate_self]

theorem inv_reachable (cfg : Config) (st : SensorState) (h : Reachable cfg st) :
    TrafficStatInv st ∧ GoodAux st := by
  induction h with
  | empty => exact ⟨fun p hp => absurd hp (List.not_mem_nil p), fun sk h => by cases h⟩
  | packet o sec _ ih => exact inv_aggregate cfg _ o sec ih.1 ih.2
  | rollover _ _ => exact ⟨fun p hp => absurd hp (List.not_mem_nil p), fun sk h => by cases h⟩
  | reseed rows =>
    have : ∀ (rs : List Row) (s : SensorState),
        TrafficStatInv s ∧ GoodAux s →
        TrafficStatInv (rs.foldl reseedRow s) ∧ GoodAux (rs.foldl reseedRow s) := by
      intro rs
      induction rs with
      | nil => exact fun s hs => hs
      | cons r t ih =>
        intro s hs
        exact ih (reseedRow s r) (inv_reseedRow s r hs.1 hs.2)
    exact this rows emptyState
      ⟨fun p hp => absurd hp (List.not_mem_nil p), fun sk h => by cases h⟩

theorem optMap_isSome {α β : Type} (f : α → Option β) (l : List α)
    (h : ∀ a ∈ l, ∃ b, f a = some b) : ∃ bs, optMap f l = some bs := by
  induction l with
  | nil => exact ⟨[], rfl⟩
  | cons a t ih =>
    obtain ⟨b, hb⟩ := h a (List.mem_cons_self _ _)
    obtain ⟨bs, hbs⟩ := ih (fun x hx => h x (List.mem_cons_of_mem _ hx))
    exact ⟨b :: bs, by simp [optMap, hb, hbs]⟩

theorem fileRows_isSome (st : SensorState) (wl : Nat → Bool)
    (hinv : TrafficStatInv st) : ∃ rows, fileRows st wl = some rows := by
  apply optMap_isSome
  intro p hp
  unfold trafficPairs at hp
  rcases List.mem_flatten.1 hp with ⟨l, hl, hpl⟩
  rcases List.mem_map.1 hl with ⟨q, hq, rfl⟩
  rcases List.mem_map.1 hpl with ⟨s, hs, rfl⟩
  have hs2 : s ∈ q.2 := (List.mem_filter.1 hs).1
  obtain ⟨v, hv⟩ := hinv q hq s hs2
  unfold rowOf
  unfold statLookup at hv
  rcases ha : alookup (AuxKey.stat (q.1, s)) st.aux with _ | w
  · rw [ha] at hv
    cases hv
  · rcases w with _ | ⟨f, l', c⟩
    · rw [ha] at hv
      cases hv
    · exact ⟨⟨q.1.1, s, q.1.2.1, q.1.2.2, f, l', c⟩, by simp [ha]⟩

/-- C10: in every reachable aggregation state, every source recorded in a
TrafficTable contact set has a StatTable entry under the corresponding
statistics key, so the per-row StatTable lookup of the flush loop always
succeeds and flush cannot fail on a missing statistics entry. -/
theorem C10_flush_total (cfg : Config) (st : SensorState) (h : Reachable cfg st) :
    (∀ dk srcs, alookup dk st.traffic = some srcs →
      ∀ s ∈ srcs, ∃ v, statLookup (dk, s) st = some v) ∧
    (∀ wl, ∃ rows, fileRows st wl = some rows) := by
  have hinv := inv_reachable cfg st h
  exact ⟨fun dk srcs hsrcs s hs => hinv.1 (dk, srcs) (alookup_mem hsrcs) s hs,
    fun wl => fileRows_isSome st wl hinv.1⟩

/-- Witness for C10: the flush row computation succeeds on the concrete
reachable state obtained by aggregating one SYN packet. -/
theorem C10_flush_total_witness :
    ∃ rows, fileRows (aggregate wcfg emptyState wSyn 5) wlNone = some rows :=
  (C10_flush_total wcfg _ (Reachable.packet wSyn 5 Reachable.empty)).2 wlNone

/-! ## C6: flushing is idempotent and writes deterministically sorted rows -/

/-- C6: flushing twice in succession with no packet processed in between,
the same whitelist input and the same target filename writes byte-identical
file content — the second forced flush rewrites the same lines and leaves
the file system unchanged — and the emitted rows are in the deterministic
sorted order. -/
theorem C6_flush_idempotent (period : Nat) (wl wl2 wl2' : Nat → Bool)
    (c1 c2 c3 c4 lw : Nat) (fn : String) (st : SensorState) (fs : FileSys)
    (lines : List String) (hl : fileLines st wl = some lines) :
    log_write period wl wl2 c1 c2 fn true st ⟨some fn, some lw⟩ fs =
      some (st, ⟨some fn, some c1⟩, aupdate fn lines fs) ∧
    log_write period wl wl2' c3 c4 fn true st ⟨some fn, some c1⟩ (aupdate fn lines fs) =
      some (st, ⟨some fn, some c3⟩, aupdate fn lines fs) ∧
    (∀ rows, fileRows st wl = some rows → List.Sorted rowRel (sortRows rows)) := by
  refine ⟨?_, ?_, ?_⟩
  · unfold log_write
    simp [hl]
  · unfold log_write
    simp [hl, aupdate_aupdate_self]
  · intro rows _
    exact List.sorted_insertionSort _ _

/-- Witness for C6 on a concrete one-entry state: both forced flushes
write the same two lines. -/
theorem C6_flush_idempotent_witness :
    log_write 10 wlNone wlNone 100 101 "2016-01-01.csv" true
        (aggregate wcfg emptyState wSyn 5) ⟨some "2016-01-01.csv", some 0⟩ [] =
      some (aggregate wcfg emptyState wSyn 5, ⟨some "2016-01-01.csv", some 100⟩,
        aupdate "2016-01-01.csv"
          ["proto src_ip dst_ip dst_port first_seen last_seen count",
           "tcp 203.0.113.5 10.0.0.2 22 5 5 1"] []) ∧
    log_write 10 wlNone wlNone 200 201 "2016-01-01.csv" true
        (aggregate wcfg emptyState wSyn 5) ⟨some "2016-01-01.csv", some 100⟩
        (aupdate "2016-01-01.csv"
          ["proto src_ip dst_ip dst_port first_seen last_seen count",
           "tcp 203.0.113.5 10.0.0.2 22 5 5 1"] []) =
      some (aggregate wcfg emptyState wSyn 5, ⟨some "2016-01-01.csv", some 200⟩,
        aupdate "2016-01-01.csv"
          ["proto src_ip dst_ip dst_port first_seen last_seen count",
           "tcp 203.0.113.5 10.0.0.2 22 5 5 1"] []) := by
  have h := C6_flush_idempotent 10 wlNone wlNone wlNone 100 101 200 201 0 "2016-01-01.csv"
    (aggregate wcfg emptyState wSyn 5) []
    ["proto src_ip dst_ip dst_port first_seen last_seen count",
     "tcp 203.0.113.5 10.0.0.2 22 5 5 1"] (by rfl)
  exact ⟨h.1, h.2.1⟩

/-! ## C2: day rollover -/

/-- Counterexample to C2 as stated: when the rollover-detecting call
itself performs the periodic write (elapsed time exceeded the write
period at the same call where the date changed), the pre-rollover
in-memory state — data aggregated on day 1, here the entry recorded at
second 5 — is written to the NEW day's file, the old day's file is never
force-flushed (it is absent from the resulting file system), and only
then are the tables cleared.  So the old file does not end holding the
final pre-rollover state, and aggregation data of one day IS written
into another day's file. -/
theorem C2_counterexample :
    log_write 10 wlNone wlNone 100 101 "2016-01-02.csv" false
        (aggregate wcfg emptyState wSyn 5) ⟨some "2016-01-01.csv", some 0⟩ [] =
      some (emptyState, ⟨some "2016-01-02.csv", some 100⟩,
        [("2016-01-02.csv",
          ["proto src_ip dst_ip dst_port first_seen last_seen count",
           "tcp 203.0.113.5 10.0.0.2 22 5 5 1"])]) ∧
    alookup "2016-01-01.csv"
      [(("2016-01-02.csv" : String),
        ["proto src_ip dst_ip dst_port first_seen last_seen count",
         "tcp 203.0.113.5 10.0.0.2 22 5 5 1"])] = (none : Option (List String)) := by
  exact ⟨by rfl, by rfl⟩

/-- C2 (amended): when the log writer runs, the filename computed from the
current UTC date differs from last_written_filename, and the current call
did not itself perform a write (not forced, the write period not yet
elapsed, and this is not the first call), it first force-flushes the
current in-memory state to the old filename, then clears TrafficTable,
StatTable and FlowSeenSet (the whole `_auxiliary`), then adopts the new
filename as current, and writes nothing to the new file; on this path
aggregation data from one day is never written into another day's file.
(When the rollover call itself performs a write — forced or periodic —
the state is instead written to the new day's file first, see the
counterexample.) -/
theorem C2_rollover_no_write_path (period : Nat) (wl wl2 : Nat → Bool)
    (current current2 lw : Nat) (todayFile oldFile : String) (st : SensorState)
    (fs : FileSys) (lines2 : List String)
    (hne : oldFile ≠ todayFile)
    (hnp : ¬ period < current - lw)
    (hlw : lw ≠ current)
    (h2 : fileLines st wl2 = some lines2) :
    log_write period wl wl2 current current2 todayFile false st ⟨some oldFile, some lw⟩ fs =
      some (emptyState, ⟨some todayFile, some current2⟩, aupdate oldFile lines2 fs) ∧
    alookup todayFile (aupdate oldFile lines2 fs) = alookup todayFile fs := by
  constructor
  · unfold log_write
    simp [hnp, hne, hlw, h2, emptyState]
  · exact alookup_aupdate_ne _ _ hne

/-- Witness for the amended C2: a rollover at second 3 (period 10 not yet
elapsed) force-flushes the day-1 state into the day-1 file and clears the
tables. -/
theorem C2_rollover_no_write_path_witness :
    log_write 10 wlNone wlNone 3 4 "2016-01-02.csv" false
        (aggregate wcfg emptyState wSyn 5) ⟨some "2016-01-01.csv", some 0⟩ [] =
      some (emptyState, ⟨some "2016-01-02.csv", some 4⟩,
        aupdate "2016-01-01.csv"
          ["proto src_ip dst_ip dst_port first_seen last_seen count",
           "tcp 203.0.113.5 10.0.0.2 22 5 5 1"] []) := by
  exact (C2_rollover_no_write_path 10 wlNone wlNone 3 4 0 "2016-01-02.csv" "2016-01-01.csv"
    (aggregate wcfg emptyState wSyn 5) []
    ["proto src_ip dst_ip dst_port first_seen last_seen count",
     "tcp 203.0.113.5 10.0.0.2 22 5 5 1"]
    (by decide) (by decide) (by decide) (by rfl)).1

/-! ## C5: restart round trip — infrastructure -/

theorem mem_aupdate_self {κ α : Type} [DecidableEq κ] (k : κ) (v : α) (l : List (κ × α)) :
    (k, v) ∈ aupdate k v l := by
  induction l with
  | nil => simp [aupdate]
  | cons q t ih =>
    rcases q with ⟨k0, v0⟩
    by_cases h0 : k0 = k
    · subst h0
      simp [aupdate]
    · simp only [aupdate, if_neg h0]
      exact List.mem_cons_of_mem _ ih

theorem statLookup_aupdate_stat (sk0 sk : StatKey) (v : Nat × Nat × Nat)
    (tr : List (DstKey × List Nat)) (aux : List (AuxKey × AuxVal)) :
    statLookup sk ⟨tr, aupdate (AuxKey.stat sk0) (AuxVal.stat v) aux⟩ =
      if sk0 = sk then some v else statLookup sk ⟨tr, aux⟩ := by
  unfold statLookup
  rw [alookup_aupdate]
  by_cases h : sk0 = sk
  · simp [h]
  · have h' : ¬ AuxKey.stat sk0 = AuxKey.stat sk := fun he => h (AuxKey.stat.inj he)
    simp [h, h']

theorem statLookup_aupdate_flow (sk : StatKey) (fk : List FlowElem) (w : AuxVal)
    (tr : List (DstKey × List Nat)) (aux : List (AuxKey × AuxVal)) :
    statLookup sk ⟨tr, aupdate (AuxKey.flow fk) w aux⟩ = statLookup sk ⟨tr, aux⟩ := by
  unfold statLookup
  rw [alookup_aupdate_ne]
  intro he
  cases he

/-- Aggregation preserves the absence of markers at statistics keys. -/
theorem goodAux_aggregate (cfg : Config) (st : SensorState) (o : Obs) (sec : Nat)
    (h2 : GoodAux st) : GoodAux (aggregate cfg st o sec) := by
  obtain ⟨tr, aux⟩ := st
  unfold aggregate
  by_cases h6 : o.protocol = 6
  · rw [if_pos h6]
    by_cases hf : o.flags = 2
    · rw [if_pos hf]
      rcases ha : alookup (AuxKey.stat ((o.proto, o.dst, o.dstPort), o.src)) aux with _ | v
      · exact goodAux_aupdate_stat h2 _ _ _
      · rcases v with _ | ⟨f, l, c⟩
        · exact h2
        · exact goodAux_aupdate_stat h2 _ _ _
    · rw [if_neg hf]
      exact h2
  · rw [if_neg h6]
    rcases hfl : alookup
        (AuxKey.flow (canonFlow o.src o.srcPort o.dst o.dstPort)) aux with _ | w
    · simp only [hfl]
      by_cases hloc : isLocal cfg o.src
      · simp only [hloc, if_true]
        exact goodAux_aupdate_flow h2 _ _ _
      · simp only [hloc, Bool.false_eq_true, if_false]
        exact @goodAux_aupdate_stat
          ⟨tr, aupdate (AuxKey.flow (canonFlow o.src o.srcPort o.dst o.dstPort))
            AuxVal.mark aux⟩
          (goodAux_aupdate_flow h2 _ _ tr) _ _ _
    · simp only [hfl]
      rcases ha : alookup (AuxKey.stat ((o.proto, o.dst, o.dstPort), o.src)) aux with _ | v
      · exact h2
      · rcases v with _ | ⟨f, l, c⟩
        · exact h2
        · exact goodAux_aupdate_stat h2 _ _ _

/-- Under `GoodAux`, the raw `_auxiliary` lookup at a statistics key is
determined by `statLookup`; two stat-equal states therefore agree on it. -/
theorem alookup_stat_eq_of_statEq {st1 st2 : SensorState} (hm1 : GoodAux st1)
    (hm2 : GoodAux st2) (heq : StatEq st1 st2) (sk : StatKey) :
    alookup (AuxKey.stat sk) st1.aux = alookup (AuxKey.stat sk) st2.aux := by
  have h := heq sk
  unfold statLookup at h
  rcases ha1 : alookup (AuxKey.stat sk) st1.aux with _ | v1
  · rcases ha2 : alookup (AuxKey.stat sk) st2.aux with _ | v2
    · rfl
    · rcases v2 with _ | w2
      · exact absurd ha2 (hm2 sk)
      · rw [ha1, ha2] at h
        simp at h
  · rcases v1 with _ | w1
    · exact absurd ha1 (hm1 sk)
    · rcases ha2 : alookup (AuxKey.stat sk) st2.aux with _ | v2
      · rw [ha1, ha2] at h
        simp at h
      · rcases v2 with _ | w2
        · exact absurd ha2 (hm2 sk)
        · rw [ha1, ha2] at h
          simp at h
          rw [h]

/-- TCP aggregation steps respect statistics-table equality. -/
theorem statEq_aggregate_tcp (cfg : Config) {st1 st2 : SensorState} (o : Obs) (sec : Nat)
    (h6 : o.protocol = 6) (hm1 : GoodAux st1) (hm2 : GoodAux st2) (heq : StatEq st1 st2) :
    StatEq (aggregate cfg st1 o sec) (aggregate cfg st2 o sec) := by
  have hsame := alookup_stat_eq_of_statEq hm1 hm2 heq ((o.proto, o.dst, o.dstPort), o.src)
  obtain ⟨tr1, aux1⟩ := st1
  obtain ⟨tr2, aux2⟩ := st2
  intro sk
  unfold aggregate
  rw [if_pos h6, if_pos h6]
  by_cases hf : o.flags = 2
  · rw [if_pos hf, if_pos hf]
    rcases ha : alookup (AuxKey.stat ((o.proto, o.dst, o.dstPort), o.src)) aux1 with _ | v
    · rw [ha] at hsame
      simp only [ha, ← hsame]
      rw [statLookup_aupdate_stat, statLookup_aupdate_stat]
      by_cases hsk : ((o.proto, o.dst, o.dstPort), o.src) = sk
      · simp [hsk]
      · simp only [hsk, if_false]
        exact heq sk
    · rw [ha] at hsame
      rcases v with _ | ⟨f, l, c⟩
      · exact absurd ha (hm1 _)
      · simp only [ha, ← hsame]
        rw [statLookup_aupdate_stat, statLookup_aupdate_stat]
        by_cases hsk : ((o.proto, o.dst, o.dstPort), o.src) = sk
        · simp [hsk]
        · simp only [hsk, if_false]
          exact heq sk
  · rw [if_neg hf, if_neg hf]
    exact heq sk

theorem statEq_trace_tcp (cfg : Config) (ps : List (Obs × Nat))
    (h6 : ∀ p ∈ ps, (p.1 : Obs).protocol = 6) :
    ∀ st1 st2, GoodAux st1 → GoodAux st2 → StatEq st1 st2 →
    StatEq (processTrace cfg st1 ps) (processTrace cfg st2 ps) := by
  induction ps with
  | nil => exact fun _ _ _ _ h => h
  | cons p t ih =>
    intro st1 st2 hm1 hm2 heq
    have h6p := h6 p (List.mem_cons_self _ _)
    have h6t : ∀ q ∈ t, (q.1 : Obs).protocol = 6 :=
      fun q hq => h6 q (List.mem_cons_of_mem _ hq)
    exact ih h6t (aggregate cfg st1 p.1 p.2) (aggregate cfg st2 p.1 p.2)
      (goodAux_aggregate cfg st1 p.1 p.2 hm1) (goodAux_aggregate cfg st2 p.1 p.2 hm2)
      (statEq_aggregate_tcp cfg p.1 p.2 h6p hm1 hm2 heq)

theorem reachable_processTrace (cfg : Config) (ps : List (Obs × Nat)) :
    ∀ st, Reachable cfg st → Reachable cfg (processTrace cfg st ps) := by
  induction ps with
  | nil => exact fun st h => h
  | cons p t ih =>
    exact fun st h => ih (aggregate cfg st p.1 p.2) (Reachable.packet p.1 p.2 h)

/-- Single reseeding step, seen through `statLookup`. -/
theorem statLookup_reseedRow (s : SensorState) (r : Row) (sk : StatKey) :
    statLookup sk (reseedRow s r) =
      if skOfRow r = sk then some (r.first, r.last, r.count) else statLookup sk s := by
  obtain ⟨tr, aux⟩ := s
  unfold reseedRow
  exact statLookup_aupdate_stat _ _ _ _ _

theorem statLookup_foldl_reseed_notmem (sk : StatKey) :
    ∀ (rows : List Row) (s : SensorState), (∀ r ∈ rows, skOfRow r ≠ sk) →
    statLookup sk (rows.foldl reseedRow s) = statLookup sk s := by
  intro rows
  induction rows with
  | nil => exact fun s _ => rfl
  | cons r t ih =>
    intro s hne
    have h1 : skOfRow r ≠ sk := hne r (List.mem_cons_self _ _)
    have h2 : ∀ q ∈ t, skOfRow q ≠ sk := fun q hq => hne q (List.mem_cons_of_mem _ hq)
    show statLookup sk (t.foldl reseedRow (reseedRow s r)) = _
    rw [ih (reseedRow s r) h2, statLookup_reseedRow, if_neg h1]

theorem statLookup_foldl_reseed (sk : StatKey) :
    ∀ (rows : List Row) (s : SensorState), (rows.map skOfRow).Nodup →
    statLookup sk (rows.foldl reseedRow s) =
      (match rows.find? (fun r => decide (skOfRow r = sk)) with
        | some r => some (r.first, r.last, r.count)
        | none => statLookup sk s) := by
  intro rows
  induction rows with
  | nil => exact fun s _ => rfl
  | cons r t ih =>
    intro s hnd
    rw [List.map_cons, List.nodup_cons] at hnd
    show statLookup sk (t.foldl reseedRow (reseedRow s r)) = _
    by_cases h1 : skOfRow r = sk
    · have hno : ∀ q ∈ t, skOfRow q ≠ sk := by
        intro q hq he
        exact hnd.1 (h1 ▸ he ▸ List.mem_map_of_mem skOfRow hq)
      rw [statLookup_foldl_reseed_notmem sk t (reseedRow s r) hno,
        statLookup_reseedRow, if_pos h1]
      have hfind : (r :: t).find? (fun q => decide (skOfRow q = sk)) = some r := by
        simp [List.find?_cons, h1]
      rw [hfind]
    · rw [ih (reseedRow s r) hnd.2]
      have hfind : (r :: t).find? (fun q => decide (skOfRow q = sk)) =
          t.find? (fun q => decide (skOfRow q = sk)) := by
        simp [List.find?_cons, h1]
      rw [hfind]
      rcases t.find? (fun q => decide (skOfRow q = sk)) with _ | q
      · rw [statLookup_reseedRow, if_neg h1]
      · rfl

/-- Reseeding produces no flow markers. -/
theorem goodAux_reseed (rows : List Row) : GoodAux (reseed rows) := by
  have : ∀ (rs : List Row) (s : SensorState), GoodAux s → GoodAux (rs.foldl reseedRow s) := by
    intro rs
    induction rs with
    | nil => exact fun s h => h
    | cons r t ih =>
      intro s h
      refine ih (reseedRow s r) ?_
      obtain ⟨tr, aux⟩ := s
      exact goodAux_aupdate_stat h _ _ _
  exact this rows emptyState (fun sk h => by cases h)

/-- The common mutation of the TCP SYN path and of startup reseeding:
record `src` under `dk0` and assign a statistics value to `(dk0, src)`.
It preserves `TcpWF`. -/
theorem tcpWF_mutate (tr : List (DstKey × List Nat)) (aux : List (AuxKey × AuxVal))
    (dk0 : DstKey) (src : Nat) (v0 : Nat × Nat × Nat) (h : TcpWF ⟨tr, aux⟩) :
    TcpWF ⟨aupdate dk0 (((alookup dk0 tr).getD []).insert src) tr,
           aupdate (AuxKey.stat (dk0, src)) (AuxVal.stat v0) aux⟩ := by
  constructor
  · exact akeys_aupdate_nodup _ _ h.tkeys
  · intro p hp
    rcases mem_aupdate hp with he | hp'
    · have : p.2 = ((alookup dk0 tr).getD []).insert src := by rw [he]
      rw [this]
      rcases htr : alookup dk0 tr with _ | srcs
      · simp
      · exact List.Nodup.insert (h.tsets (dk0, srcs) (alookup_mem htr))
    · exact h.tsets p hp'
  · intro q hq
    rcases mem_aupdate hq with he | hq'
    · exact ⟨(dk0, src), v0, he⟩
    · exact h.auxStat q hq'
  · refine trafficStatInv_update tr aux _ dk0 src v0 ?_ ?_ h.t2s
    · intro sk hsk
      rw [statLookup_aupdate_stat, if_neg (fun he => hsk he.symm)]
    · rw [statLookup_aupdate_stat, if_pos rfl]
  · intro sk v hsv
    rw [statLookup_tr _ _ tr, statLookup_aupdate_stat] at hsv
    by_cases hk : ((dk0 : DstKey), src) = sk
    · subst hk
      refine ⟨(dk0, ((alookup dk0 tr).getD []).insert src), mem_aupdate_self _ _ _, rfl, ?_⟩
      exact List.mem_insert_self _ _
    · rw [if_neg hk] at hsv
      obtain ⟨p, hp, hp1, hp2⟩ := h.s2t sk v hsv
      by_cases hpd : p.1 = dk0
      · have hlk : alookup dk0 tr = some p.2 := by
          rw [← hpd]
          exact alookup_of_mem_nodup h.tkeys hp
        refine ⟨(dk0, ((alookup dk0 tr).getD []).insert src), mem_aupdate_self _ _ _, ?_, ?_⟩
        · rw [← hpd, hp1]
        · rw [hlk]
          exact List.mem_insert_of_mem hp2
      · exact ⟨p, mem_aupdate_of_mem _ hp hpd, hp1, hp2⟩

theorem tcpWF_empty : TcpWF emptyState := by
  constructor
  · simp [akeys, emptyState]
  · intro p hp
    cases hp
  · intro q hq
    cases hq
  · intro p hp
    cases hp
  · intro sk v hsv
    cases hsv

theorem tcpWF_aggregate (cfg : Config) (st : SensorState) (o : Obs) (sec : Nat)
    (h6 : o.protocol = 6) (h : TcpWF st) : TcpWF (aggregate cfg st o sec) := by
  obtain ⟨tr, aux⟩ := st
  unfold aggregate
  rw [if_pos h6]
  by_cases hf : o.flags = 2
  · rw [if_pos hf]
    rcases ha : alookup (AuxKey.stat ((o.proto, o.dst, o.dstPort), o.src)) aux with _ | v
    · exact tcpWF_mutate tr aux _ o.src (sec, sec, 1) h
    · rcases v with _ | ⟨f, l, c⟩
      · obtain ⟨sk', v', hqe⟩ := h.auxStat _ (alookup_mem ha)
        simp at hqe
      · exact tcpWF_mutate tr aux _ o.src (f, sec, c + 1) h
  · rw [if_neg hf]
    exact h

theorem tcpWF_trace (cfg : Config) (ps : List (Obs × Nat))
    (h6 : ∀ p ∈ ps, (p.1 : Obs).protocol = 6) :
    ∀ st, TcpWF st → TcpWF (processTrace cfg st ps) := by
  induction ps with
  | nil => exact fun st h => h
  | cons p t ih =>
    intro st h
    exact ih (fun q hq => h6 q (List.mem_cons_of_mem _ hq)) _
      (tcpWF_aggregate cfg st p.1 p.2 (h6 p (List.mem_cons_self _ _)) h)

theorem pairs_nodup_aux (wl : Nat → Bool) :
    ∀ tr : List (DstKey × List Nat), (tr.map Prod.fst).Nodup →
    (∀ p ∈ tr, (p.2 : List Nat).Nodup) →
    ((tr.map (fun p => (p.2.filter (fun s => !wl s)).map (fun s => (p.1, s)))).flatten).Nodup := by
  intro tr
  induction tr with
  | nil => simp
  | cons p t ih =>
    intro hk hs
    rw [List.map_cons, List.flatten_cons]
    rw [List.map_cons, List.nodup_cons] at hk
    apply List.Nodup.append
    · refine List.Nodup.map ?_ (List.Nodup.filter _ (hs p (List.mem_cons_self _ _)))
      intro a b hab
      injection hab with h1 h2
    · exact ih hk.2 (fun q hq => hs q (List.mem_cons_of_mem _ hq))
    · intro x hx1 hx2
      rcases List.mem_map.1 hx1 with ⟨s, hsx, rfl⟩
      rcases List.mem_flatten.1 hx2 with ⟨l, hl, hxl⟩
      rcases List.mem_map.1 hl with ⟨q, hq, rfl⟩
      rcases List.mem_map.1 hxl with ⟨s', hs', he⟩
      have hq1 : q.1 = p.1 := by
        injection he with h1 h2
      exact hk.1 (hq1 ▸ List.mem_map_of_mem Prod.fst hq)

theorem trafficPairs_nodup {st : SensorState} (h : TcpWF st) (wl : Nat → Bool) :
    (trafficPairs st wl).Nodup := by
  unfold trafficPairs
  exact pairs_nodup_aux wl st.traffic h.tkeys h.tsets

theorem optMap_mem {α β : Type} (f : α → Option β) :
    ∀ (l : List α) (bs : List β), optMap f l = some bs → ∀ b ∈ bs, ∃ a ∈ l, f a = some b := by
  intro l
  induction l with
  | nil =>
    intro bs h b hb
    cases h
    cases hb
  | cons a t ih =>
    intro bs h b hb
    unfold optMap at h
    rcases hfa : f a with _ | b0 <;> rw [hfa] at h
    · cases h
    · rcases hot : optMap f t with _ | bs0 <;> rw [hot] at h
      · cases h
      · cases h
        rcases List.mem_cons.1 hb with rfl | hb'
        · exact ⟨a, List.mem_cons_self _ _, hfa⟩
        · obtain ⟨a', ha', hfa'⟩ := ih bs0 hot b hb'
          exact ⟨a', List.mem_cons_of_mem _ ha', hfa'⟩

theorem optMap_cover {α β : Type} (f : α → Option β) :
    ∀ (l : List α) (bs : List β), optMap f l = some bs → ∀ a ∈ l, ∃ b ∈ bs, f a = some b := by
  intro l
  induction l with
  | nil =>
    intro bs h a ha
    cases ha
  | cons a0 t ih =>
    intro bs h a ha
    unfold optMap at h
    rcases hfa : f a0 with _ | b0 <;> rw [hfa] at h
    · cases h
    · rcases hot : optMap f t with _ | bs0 <;> rw [hot] at h
      · cases h
      · cases h
        rcases List.mem_cons.1 ha with rfl | ha'
        · exact ⟨b0, List.mem_cons_self _ _, hfa⟩
        · obtain ⟨b, hb, hfb⟩ := ih bs0 hot a ha'
          exact ⟨b, List.mem_cons_of_mem _ hb, hfb⟩

theorem optMap_fst_map {α β γ : Type} (f : α → Option β) (g : β → γ) (gh : α → γ)
    (hfg : ∀ a b, f a = some b → g b = gh a) :
    ∀ (l : List α) (bs : List β), optMap f l = some bs → bs.map g = l.map gh := by
  intro l
  induction l with
  | nil =>
    intro bs h
    cases h
    rfl
  | cons a t ih =>
    intro bs h
    unfold optMap at h
    rcases hfa : f a with _ | b0 <;> rw [hfa] at h
    · cases h
    · rcases hot : optMap f t with _ | bs0 <;> rw [hot] at h
      · cases h
      · cases h
        rw [List.map_cons, List.map_cons, ih bs0 hot, hfg a b0 hfa]

theorem rowOf_char {st : SensorState} {dk : DstKey} {src : Nat} {r : Row}
    (h : rowOf st dk src = some r) :
    skOfRow r = (dk, src) ∧ statLookup (dk, src) st = some (r.first, r.last, r.count) := by
  unfold rowOf at h
  rcases ha : alookup (AuxKey.stat (dk, src)) st.aux with _ | v <;> rw [ha] at h
  · cases h
  · rcases v with _ | ⟨f, l, c⟩
    · cases h
    · cases h
      exact ⟨rfl, by unfold statLookup; rw [ha]⟩

/-- What one flush's rows say about a well-formed TCP-only state, with the
empty whitelist: their keys are distinct, each row carries exactly the
statistics value of its key, and every statistics entry is covered by a
row. -/
theorem fileRows_wlNone_char {st : SensorState} (h : TcpWF st) {rows : List Row}
    (hr : fileRows st wlNone = some rows) :
    (rows.map skOfRow).Nodup ∧
    (∀ r ∈ rows, statLookup (skOfRow r) st = some (r.first, r.last, r.count)) ∧
    (∀ sk v, statLookup sk st = some v → ∃ r ∈ rows, skOfRow r = sk) := by
  unfold fileRows at hr
  refine ⟨?_, ?_, ?_⟩
  · have hmap : rows.map skOfRow = (trafficPairs st wlNone).map (fun p => p) :=
      optMap_fst_map _ _ _ (fun a b hab => (rowOf_char hab).1) _ rows hr
    rw [hmap, List.map_id']
    exact trafficPairs_nodup h wlNone
  · intro r hrm
    obtain ⟨a, ha, hfa⟩ := optMap_mem _ _ _ hr r hrm
    have hc := rowOf_char hfa
    rw [hc.1]
    exact hc.2
  · intro sk v hsv
    obtain ⟨p, hp, hp1, hp2⟩ := h.s2t sk v hsv
    have hpair : ((p.1 : DstKey), sk.2) ∈ trafficPairs st wlNone := by
      unfold trafficPairs
      refine List.mem_flatten.2 ⟨(p.2.filter (fun s => !wlNone s)).map (fun s => (p.1, s)),
        List.mem_map_of_mem _ hp, ?_⟩
      refine List.mem_map_of_mem _ (List.mem_filter.2 ⟨hp2, rfl⟩)
    obtain ⟨b, hb, hfb⟩ := optMap_cover _ _ _ hr _ hpair
    refine ⟨b, hb, ?_⟩
    rw [(rowOf_char hfb).1, hp1]

/-- Counterexample to C5 as stated.  Two concrete split scenarios violate
"the same final StatTable ... except for at most one duplicate
new-contact per non-TCP flow": (i) with a TCP-only day (the exception
clause is vacuous) and a whitelisted source, the flush omits the source's
rows, so after the restart its StatTable entry is gone entirely; (ii)
with an empty whitelist, a non-TCP flow in flight at the split has its
entry *re-created* by the first post-restart packet — (7, 7, 1) instead
of (5, 7, 2): first_seen is lost and count decreases, which no
"duplicate contact" allows. -/
theorem C5_counterexample :
    (statLookup (("tcp", wD, Port.num 22), wS) (processTrace wcfg emptyState [(wSyn, 5)]) =
        some (5, 5, 1) ∧
      fileRows (processTrace wcfg emptyState [(wSyn, 5)]) (fun a => a == wS) = some [] ∧
      statLookup (("tcp", wD, Port.num 22), wS) (processTrace wcfg (reseed []) []) = none) ∧
    (statLookup (("udp", wD, Port.num 53), wS)
        (processTrace wcfg emptyState [(wUdp, 5), (wUdp, 7)]) = some (5, 7, 2) ∧
      fileRows (processTrace wcfg emptyState [(wUdp, 5)]) wlNone =
        some [⟨"udp", wS, wD, Port.num 53, 5, 5, 1⟩] ∧
      statLookup (("udp", wD, Port.num 53), wS)
        (processTrace wcfg (reseed [⟨"udp", wS, wD, Port.num 53, 5, 5, 1⟩]) [(wUdp, 7)]) =
        some (7, 7, 1)) := by
  exact ⟨⟨by rfl, by rfl, by rfl⟩, by rfl, by rfl, by rfl⟩

/-- C5 (amended): for every sequence of one day's *TCP* packets split at
any point, with an *empty whitelist* at the split flush: flushing the
state at the split, restarting with empty tables, reseeding by parsing
the flushed rows, and processing the remaining packets yields exactly the
same final StatTable as processing the whole sequence without restart
(the flush row computation also always succeeds at the split).  The
original claim's allowance fails for non-TCP flows (their in-flight
entries are re-created, not duplicated) and for non-empty whitelists
(whitelisted sources are lost) — see the counterexample. -/
theorem C5_tcp_restart_roundtrip (cfg : Config) (ps : List (Obs × Nat)) (k : Nat)
    (h6 : ∀ p ∈ ps, (p.1 : Obs).protocol = 6) :
    (∃ rows, fileRows (processTrace cfg emptyState (ps.take k)) wlNone = some rows) ∧
    (∀ rows, fileRows (processTrace cfg emptyState (ps.take k)) wlNone = some rows →
      StatEq (processTrace cfg (reseed rows) (ps.drop k))
             (processTrace cfg emptyState ps)) := by
  have h6take : ∀ p ∈ ps.take k, (p.1 : Obs).protocol = 6 :=
    fun p hp => h6 p (List.take_subset k ps hp)
  have h6drop : ∀ p ∈ ps.drop k, (p.1 : Obs).protocol = 6 :=
    fun p hp => h6 p (List.drop_subset k ps hp)
  have hwf : TcpWF (processTrace cfg emptyState (ps.take k)) :=
    tcpWF_trace cfg (ps.take k) h6take emptyState tcpWF_empty
  constructor
  · exact fileRows_isSome _ wlNone hwf.t2s
  · intro rows hr
    obtain ⟨hnd, hvals, hcover⟩ := fileRows_wlNone_char hwf hr
    have hre : StatEq (reseed rows) (processTrace cfg emptyState (ps.take k)) := by
      intro sk
      unfold reseed
      rw [statLookup_foldl_reseed sk rows emptyState hnd]
      rcases hfind : rows.find? (fun r => decide (skOfRow r = sk)) with _ | r
      · rcases hsa : statLookup sk (processTrace cfg emptyState (ps.take k)) with _ | v
        · rfl
        · obtain ⟨r, hrm, hrk⟩ := hcover sk v hsa
          have hnone := List.find?_eq_none.1 hfind r hrm
          simp [hrk] at hnone
      · have hrk : skOfRow r = sk := by
          have := List.find?_some hfind
          simpa using this
        have hrm : r ∈ rows := List.mem_of_find?_eq_some hfind
        rw [← hrk]
        exact (hvals r hrm).symm
    have hsplit : processTrace cfg emptyState ps =
        processTrace cfg (processTrace cfg emptyState (ps.take k)) (ps.drop k) := by
      conv_lhs => rw [← List.take_append_drop k ps]
      unfold processTrace
      rw [List.foldl_append]
    rw [hsplit]
    exact statEq_trace_tcp cfg (ps.drop k) h6drop (reseed rows) _
      (goodAux_reseed rows)
      ((inv_reachable cfg _
        (reachable_processTrace cfg (ps.take k) emptyState Reachable.empty)).2)
      hre

/-- Witness for the amended C5: a two-SYN day split after the first
packet; the restarted run reproduces the entry (5, 9, 2). -/
theorem C5_tcp_restart_roundtrip_witness :
    (∃ rows, fileRows (processTrace wcfg emptyState ([(wSyn, 5), (wSyn, 9)].take 1)) wlNone =
      some rows) ∧
    statLookup (("tcp", wD, Port.num 22), wS)
      (processTrace wcfg (reseed [⟨"tcp", wS, wD, Port.num 22, 5, 5, 1⟩])
        ([(wSyn, 5), (wSyn, 9)].drop 1)) =
    statLookup (("tcp", wD, Port.num 22), wS)
      (processTrace wcfg emptyState [(wSyn, 5), (wSyn, 9)]) := by
  have h := C5_tcp_restart_roundtrip wcfg [(wSyn, 5), (wSyn, 9)] 1 (by decide)
  refine ⟨h.1, ?_⟩
  have hr : fileRows (processTrace wcfg emptyState ([(wSyn, 5), (wSyn, 9)].take 1)) wlNone =
      some [⟨"tcp", wS, wD, Port.num 22, 5, 5, 1⟩] := by rfl
  exact h.2 _ hr (("tcp", wD, Port.num 22), wS)

end Sensor
